import Mathlib

/-!
Verification of the NT219 e-commerce security backbone (auth, sessions,
rate limiting, fingerprinting, audit chain, fraud gating) against its
natural-language specification.  The TypeScript sources are shallowly
embedded as executable Lean definitions; machine integers are `Nat`
with explicit reductions modulo 2 ^ 32 where the source relies on
32-bit wrap-around (SHA-256).
-/

set_option maxRecDepth 10000

namespace Crypto

/-- 32-bit truncation, mirroring JS/TS unsigned 32-bit arithmetic used by SHA-256. -/
def w32 (x : Nat) : Nat := x % 4294967296

/-- Right rotation of a 32-bit word. -/
def rotr (n x : Nat) : Nat := w32 ((x >>> n) ||| (x <<< (32 - n)))

/-- 32-bit bitwise complement. -/
def bnot32 (x : Nat) : Nat := 4294967295 - w32 x

/-- SHA-256 round constants. -/
def sha256K : List Nat :=
  [1116352408, 1899447441, 3049323471, 3921009573, 961987163, 1508970993,
   2453635748, 2870763221, 3624381080, 310598401, 607225278, 1426881987,
   1925078388, 2162078206, 2614888103, 3248222580, 3835390401, 4022224774,
   264347078, 604807628, 770255983, 1249150122, 1555081692, 1996064986,
   2554220882, 2821834349, 2952996808, 3210313671, 3336571891, 3584528711,
   113926993, 338241895, 666307205, 773529912, 1294757372, 1396182291,
   1695183700, 1986661051, 2177026350, 2456956037, 2730485921, 2820302411,
   3259730800, 3345764771, 3516065817, 3600352804, 4094571909, 275423344,
   430227734, 506948616, 659060556, 883997877, 958139571, 1322822218,
   1537002063, 1747873779, 1955562222, 2024104815, 2227730452, 2361852424,
   2428436474, 2756734187, 3204031479, 3329325298]

/-- SHA-256 initial hash state. -/
def sha256Init : List Nat :=
  [1779033703, 3144134277, 1013904242, 2773480762, 1359893119, 2600822924, 528734635, 1541459225]

/-- Message padding: append 0x80, zero bytes and the 64-bit big-endian bit length. -/
def sha256Pad (msg : List Nat) : List Nat :=
  let len := msg.length
  let padLen := (64 + 56 - ((len + 1) % 64)) % 64
  let bitLen := 8 * len
  msg ++ [0x80] ++ List.replicate padLen 0 ++
    ((List.range 8).map (fun i => (bitLen >>> (8 * (7 - i))) % 256))

/-- Split a list into 64-byte blocks (fuel-indexed, structurally recursive). -/
def toBlocksGo : Nat → List Nat → List (List Nat)
  | _, [] => []
  | 0, _ => []
  | fuel + 1, bs => bs.take 64 :: toBlocksGo fuel (bs.drop 64)

/-- Split a padded message into 64-byte blocks. -/
def toBlocks (l : List Nat) : List (List Nat) := toBlocksGo l.length l

/-- Assemble big-endian 32-bit words from 4-byte groups. -/
def toWords : List Nat → List Nat
  | a :: b :: c :: d :: rest => (a * 16777216 + b * 65536 + c * 256 + d) :: toWords rest
  | _ => []

/-- Message schedule: extend the 16 block words to 64. -/
def sha256Schedule (block : List Nat) : List Nat :=
  (List.range 48).foldl
    (fun w i =>
      let t := i + 16
      let w15 := w.getD (t - 15) 0
      let w2 := w.getD (t - 2) 0
      let s0 := (rotr 7 w15) ^^^ (rotr 18 w15) ^^^ (w15 >>> 3)
      let s1 := (rotr 17 w2) ^^^ (rotr 19 w2) ^^^ (w2 >>> 10)
      w ++ [w32 (w.getD (t - 16) 0 + s0 + w.getD (t - 7) 0 + s1)])
    (toWords block)

/-- One SHA-256 compression round. -/
def sha256Round (kt wt : Nat) : List Nat → List Nat
  | [a, b, c, d, e, f, g, h] =>
    let s1 := (rotr 6 e) ^^^ (rotr 11 e) ^^^ (rotr 25 e)
    let ch := (e &&& f) ^^^ ((bnot32 e) &&& g)
    let t1 := w32 (h + s1 + ch + kt + wt)
    let s0 := (rotr 2 a) ^^^ (rotr 13 a) ^^^ (rotr 22 a)
    let maj := (a &&& b) ^^^ (a &&& c) ^^^ (b &&& c)
    let t2 := w32 (s0 + maj)
    [w32 (t1 + t2), a, b, c, w32 (d + t1), e, f, g]
  | s => s

/-- Compress one 64-byte block into the running hash state. -/
def sha256Compress (state : List Nat) (block : List Nat) : List Nat :=
  let w := sha256Schedule block
  let final := (List.range 64).foldl
    (fun s t => sha256Round (sha256K.getD t 0) (w.getD t 0) s) state
  (List.range 8).map (fun i => w32 (state.getD i 0 + final.getD i 0))

/-- SHA-256 digest of a byte list, as 32 bytes. -/
def sha256Bytes (msg : List Nat) : List Nat :=
  let state := (toBlocks (sha256Pad msg)).foldl sha256Compress sha256Init
  state.flatMap (fun word => [word >>> 24 % 256, word >>> 16 % 256, word >>> 8 % 256, word % 256])

/-- Hex digit for a 4-bit value. -/
def hexDigit (n : Nat) : Char :=
  if n < 10 then Char.ofNat (48 + n % 16) else Char.ofNat (87 + n % 16)

/-- Lowercase hex rendering of a byte list. -/
def bytesToHex (bs : List Nat) : List Char :=
  bs.flatMap (fun b => [hexDigit (b / 16 % 16), hexDigit (b % 16)])

/-- UTF-8 encoding of one Unicode scalar value. -/
def utf8EncodeChar (c : Char) : List Nat :=
  let n := c.toNat
  if n < 0x80 then [n]
  else if n < 0x800 then [0xc0 + n / 64, 0x80 + n % 64]
  else if n < 0x10000 then [0xe0 + n / 4096, 0x80 + n / 64 % 64, 0x80 + n % 64]
  else [0xf0 + n / 262144, 0x80 + n / 4096 % 64, 0x80 + n / 64 % 64, 0x80 + n % 64]

/-- UTF-8 encoding of a char list. -/
def utf8Encode (cs : List Char) : List Nat := cs.flatMap utf8EncodeChar

/-- Test for a UTF-8 continuation byte. -/
def contByte (x : Nat) : Bool := 0x80 ≤ x && x < 0xc0

/-- UTF-8 decoding loop (fuel-indexed, structurally recursive). -/
def utf8DecodeGo : Nat → List Nat → List Char
  | 0, _ => []
  | _ + 1, [] => []
  | fuel + 1, b :: rest =>
    if b < 0x80 then Char.ofNat b :: utf8DecodeGo fuel rest
    else if 0xc2 ≤ b && b < 0xe0 then
      match rest with
      | b2 :: rest2 =>
        if contByte b2 then Char.ofNat ((b - 0xc0) * 64 + (b2 - 0x80)) :: utf8DecodeGo fuel rest2
        else Char.ofNat 0xfffd :: utf8DecodeGo fuel rest
      | [] => [Char.ofNat 0xfffd]
    else if 0xe0 ≤ b && b < 0xf0 then
      match rest with
      | b2 :: b3 :: rest3 =>
        if contByte b2 && contByte b3 then
          Char.ofNat ((b - 0xe0) * 4096 + (b2 - 0x80) * 64 + (b3 - 0x80)) :: utf8DecodeGo fuel rest3
        else Char.ofNat 0xfffd :: utf8DecodeGo fuel rest
      | _ => Char.ofNat 0xfffd :: utf8DecodeGo fuel rest
    else if 0xf0 ≤ b && b < 0xf5 then
      match rest with
      | b2 :: b3 :: b4 :: rest4 =>
        if contByte b2 && contByte b3 && contByte b4 then
          Char.ofNat ((b - 0xf0) * 262144 + (b2 - 0x80) * 4096 + (b3 - 0x80) * 64 + (b4 - 0x80)) ::
            utf8DecodeGo fuel rest4
        else Char.ofNat 0xfffd :: utf8DecodeGo fuel rest
      | _ => Char.ofNat 0xfffd :: utf8DecodeGo fuel rest
    else Char.ofNat 0xfffd :: utf8DecodeGo fuel rest

/-- UTF-8 decoding with U+FFFD replacement for malformed sequences, as
Node's `Buffer.prototype.toString('utf8')` performs. -/
def utf8Decode (bs : List Nat) : List Char := utf8DecodeGo bs.length bs

/-- SHA-256 hex digest of a string, as `crypto.createHash('sha256').update(s).digest('hex')`. -/
def sha256Hex (s : List Char) : List Char := bytesToHex (sha256Bytes (utf8Encode s))

/-- HMAC-SHA256 over byte lists. -/
def hmacSha256 (key msg : List Nat) : List Nat :=
  let key0 := if key.length > 64 then sha256Bytes key else key
  let key1 := key0 ++ List.replicate (64 - key0.length) 0
  let ipad := key1.map (fun b => b ^^^ 0x36)
  let opad := key1.map (fun b => b ^^^ 0x5c)
  sha256Bytes (opad ++ sha256Bytes (ipad ++ msg))

/-- HMAC-SHA256 hex digest over strings, as `crypto.createHmac('sha256', key)`. -/
def hmacSha256Hex (key msg : List Char) : List Char :=
  bytesToHex (hmacSha256 (utf8Encode key) (utf8Encode msg))

end Crypto

namespace StrUtil

/-- Split a character list at every dot, as JS `token.split('.')`. -/
def splitDots : List Char → List (List Char)
  | [] => [[]]
  | c :: rest =>
    if c = '.' then [] :: splitDots rest
    else
      match splitDots rest with
      | seg :: segs => (c :: seg) :: segs
      | [] => [[c]]

/-- ASCII lower-casing of one character, as JS `toLowerCase` acts on ASCII. -/
def lowerChar (c : Char) : Char :=
  if 65 ≤ c.toNat ∧ c.toNat ≤ 90 then Char.ofNat (c.toNat + 32) else c

/-- ASCII lower-casing of a string. -/
def lowerAscii (s : String) : String := String.mk (s.data.map lowerChar)

/-- Decimal digit character for a value below ten. -/
def digitChar (n : Nat) : Char := Char.ofNat (48 + n % 10)

/-- Decimal digit expansion, most significant first (fuel-indexed). -/
def natDigitsGo : Nat → Nat → List Char
  | 0, _ => []
  | fuel + 1, n => if n < 10 then [digitChar n] else natDigitsGo fuel (n / 10) ++ [digitChar (n % 10)]

/-- Decimal rendering of a natural number, as JS number stringification of integers. -/
def natDigits (n : Nat) : List Char := natDigitsGo (n + 1) n

/-- Test for an ASCII decimal digit. -/
def isDigitChar (c : Char) : Bool := 48 ≤ c.toNat && c.toNat ≤ 57

/-- Value of a maximal leading digit run. -/
def digitsToNat (ds : List Char) : Nat := ds.foldl (fun a c => a * 10 + (c.toNat - 48)) 0

end StrUtil

namespace Js

open StrUtil

/-- JSON values as produced by `JSON.parse`; numbers are restricted to the
naturals actually used by the embedded system (token versions, timestamps). -/
inductive Json where
  | null : Json
  | bool : Bool → Json
  | num : Nat → Json
  | str : String → Json
  | arr : List Json → Json
  | obj : List (String × Json) → Json
deriving Repr

/-- JS property access on a parsed JSON object: the last duplicate key wins,
as in `JSON.parse`; any other value yields `undefined` (`none`). -/
def jget (j : Json) (key : String) : Option Json :=
  match j with
  | .obj fields => fields.foldl (fun acc kv => if kv.1 = key then some kv.2 else acc) none
  | _ => none

/-- JS falsiness of an optional JSON value: `undefined`, `null`, `""`, `0` and
`false` are falsy. -/
def jsFalsy : Option Json → Bool
  | none => true
  | some .null => true
  | some (.str s) => s = ""
  | some (.num n) => n = 0
  | some (.bool b) => !b
  | some _ => false

/-- String field accessor: `some s` when the property is the JSON string `s`. -/
def jgetStr (j : Json) (key : String) : Option String :=
  match jget j key with
  | some (.str s) => some s
  | _ => none

/-- Numeric field accessor. -/
def jgetNum (j : Json) (key : String) : Option Nat :=
  match jget j key with
  | some (.num n) => some n
  | _ => none

/-- JSON string-literal escaping as `JSON.stringify` performs. -/
def escapeChar (c : Char) : List Char :=
  if c = '"' then ['\\', '"']
  else if c = '\\' then ['\\', '\\']
  else if c = Char.ofNat 10 then ['\\', 'n']
  else if c = Char.ofNat 13 then ['\\', 'r']
  else if c = Char.ofNat 9 then ['\\', 't']
  else if c = Char.ofNat 8 then ['\\', 'b']
  else if c = Char.ofNat 12 then ['\\', 'f']
  else if c.toNat < 32 then
    ['\\', 'u', '0', '0', Crypto.hexDigit (c.toNat / 16 % 16), Crypto.hexDigit (c.toNat % 16)]
  else [c]

/-- Rendering of a JSON string literal. -/
def renderStr (s : String) : List Char := '"' :: s.data.flatMap escapeChar ++ ['"']

/-- Compact JSON rendering (fuel-indexed over nesting depth), matching
`JSON.stringify` with no spacing. -/
def renderGo : Nat → Json → List Char
  | 0, _ => []
  | fuel + 1, j =>
    match j with
    | .null => 'n' :: 'u' :: 'l' :: 'l' :: []
    | .bool true => 't' :: 'r' :: 'u' :: 'e' :: []
    | .bool false => 'f' :: 'a' :: 'l' :: 's' :: 'e' :: []
    | .num n => natDigits n
    | .str s => renderStr s
    | .arr xs => '[' :: renderArrGo fuel xs ++ [']']
    | .obj fs => '{' :: renderObjGo fuel fs ++ ['}']
where
  renderArrGo : Nat → List Json → List Char
    | _, [] => []
    | fuel, [x] => renderGo fuel x
    | fuel, x :: y :: rest => renderGo fuel x ++ ',' :: renderArrGo fuel (y :: rest)
  renderObjGo : Nat → List (String × Json) → List Char
    | _, [] => []
    | fuel, [kv] => renderStr kv.1 ++ ':' :: renderGo fuel kv.2
    | fuel, kv :: f :: rest => renderStr kv.1 ++ ':' :: renderGo fuel kv.2 ++ ',' :: renderObjGo fuel (f :: rest)

/-- Compact JSON rendering of a value; the fuel bounds nesting depth at 64,
which covers every document this system serializes (all are flat). -/
def render (j : Json) : List Char := renderGo 64 j

/-- Skip JSON whitespace. -/
def skipWs : List Char → List Char
  | c :: rest =>
    if c = ' ' ∨ c = Char.ofNat 9 ∨ c = Char.ofNat 10 ∨ c = Char.ofNat 13 then skipWs rest
    else c :: rest
  | [] => []

/-- String-literal body parsing loop (fuel-indexed, structurally
recursive). -/
def parseStrBodyGo : Nat → List Char → Option (List Char × List Char)
  | 0, _ => none
  | _ + 1, [] => none
  | fuel + 1, c :: rest =>
    if c = '"' then some ([], rest)
    else if c = '\\' then
      match rest with
      | e :: rest2 =>
        let decoded : Option Char :=
          if e = '"' then some '"'
          else if e = '\\' then some '\\'
          else if e = '/' then some '/'
          else if e = 'n' then some (Char.ofNat 10)
          else if e = 'r' then some (Char.ofNat 13)
          else if e = 't' then some (Char.ofNat 9)
          else if e = 'b' then some (Char.ofNat 8)
          else if e = 'f' then some (Char.ofNat 12)
          else none
        match decoded with
        | some d =>
          match parseStrBodyGo fuel rest2 with
          | some (s, rem) => some (d :: s, rem)
          | none => none
        | none => none
      | [] => none
    else
      match parseStrBodyGo fuel rest with
      | some (s, rem) => some (c :: s, rem)
      | none => none

/-- Parse the body of a JSON string literal after the opening quote,
returning the decoded string and the remaining input. -/
def parseStrBody (cs : List Char) : Option (List Char × List Char) :=
  parseStrBodyGo cs.length cs

/-- Collect a maximal leading digit run. -/
def spanDigits : List Char → List Char × List Char
  | [] => ([], [])
  | c :: rest =>
    if isDigitChar c then
      let (ds, rem) := spanDigits rest
      (c :: ds, rem)
    else ([], c :: rest)

/-- Recursive-descent JSON parser (fuel-indexed); supports the object, array,
string, natural-number, boolean and null productions that `JSON.parse`
accepts for the documents this system exchanges. -/
def parseVal : Nat → List Char → Option (Json × List Char)
  | 0, _ => none
  | fuel + 1, input =>
    match skipWs input with
    | [] => none
    | c :: rest =>
      if c = '"' then
        match parseStrBody rest with
        | some (s, rem) => some (.str (String.mk s), rem)
        | none => none
      else if c = '{' then parseObjFields fuel (skipWs rest) true
      else if c = '[' then parseArrItems fuel (skipWs rest) true
      else if c = 't' then
        match rest with
        | 'r' :: 'u' :: 'e' :: rem => some (.bool true, rem)
        | _ => none
      else if c = 'f' then
        match rest with
        | 'a' :: 'l' :: 's' :: 'e' :: rem => some (.bool false, rem)
        | _ => none
      else if c = 'n' then
        match rest with
        | 'u' :: 'l' :: 'l' :: rem => some (.null, rem)
        | _ => none
      else if isDigitChar c then
        let (ds, rem) := spanDigits (c :: rest)
        some (.num (digitsToNat ds), rem)
      else none
where
  parseObjFields : Nat → List Char → Bool → Option (Json × List Char)
    | 0, _, _ => none
    | _ + 1, [], _ => none
    | fuel + 1, c :: rest, first =>
      if c = '}' ∧ first then some (.obj [], rest)
      else
        match parseOneField fuel (c :: rest) with
        | some (k, v, rem) =>
          match skipWs rem with
          | ',' :: rem2 =>
            match parseObjFields fuel (skipWs rem2) false with
            | some (.obj fs, rem3) => some (.obj ((k, v) :: fs), rem3)
            | _ => none
          | '}' :: rem2 => some (.obj [(k, v)], rem2)
          | _ => none
        | none => none
  parseOneField : Nat → List Char → Option (String × Json × List Char)
    | 0, _ => none
    | fuel + 1, input =>
      match skipWs input with
      | '"' :: rest =>
        match parseStrBody rest with
        | some (k, rem) =>
          match skipWs rem with
          | ':' :: rem2 =>
            match parseVal fuel rem2 with
            | some (v, rem3) => some (String.mk k, v, rem3)
            | none => none
          | _ => none
        | none => none
      | _ => none
  parseArrItems : Nat → List Char → Bool → Option (Json × List Char)
    | 0, _, _ => none
    | _ + 1, [], _ => none
    | fuel + 1, c :: rest, first =>
      if c = ']' ∧ first then some (.arr [], rest)
      else
        match parseVal fuel (c :: rest) with
        | some (v, rem) =>
          match skipWs rem with
          | ',' :: rem2 =>
            match parseArrItems fuel (skipWs rem2) false with
            | some (.arr vs, rem3) => some (.arr (v :: vs), rem3)
            | _ => none
          | ']' :: rem2 => some (.arr [v], rem2)
          | _ => none
        | none => none

/-- Characters that JSON-escape to themselves: printable ASCII other than
the quote and the backslash. -/
def jsonSafeChar (c : Char) : Bool :=
  decide (32 ≤ c.toNat) && decide (c.toNat < 127) && decide (c ≠ '"') && decide (c ≠ '\\')

/-- Strings whose JSON rendering is the quoted verbatim text. -/
def jsonSafe (s : String) : Bool := s.data.all jsonSafeChar

/-- A field whose key is safe and whose value is a safe string or a number. -/
def flatField (kv : String × Json) : Bool :=
  jsonSafe kv.1 &&
    match kv.2 with
    | .str s => jsonSafe s
    | .num _ => true
    | _ => false

/-- `JSON.parse` on a character list: the whole input must be one JSON value
followed only by whitespace. -/
def jsonParse (cs : List Char) : Option Json :=
  match parseVal (cs.length + 1) cs with
  | some (v, rem) => if skipWs rem = [] then some v else none
  | none => none

end Js

namespace B64

/-- The base64url alphabet (RFC 4648 §5), as used by JWT segments. -/
def alphabet : List Char :=
  ['A', 'B', 'C', 'D', 'E', 'F', 'G', 'H', 'I', 'J', 'K', 'L', 'M',
   'N', 'O', 'P', 'Q', 'R', 'S', 'T', 'U', 'V', 'W', 'X', 'Y', 'Z',
   'a', 'b', 'c', 'd', 'e', 'f', 'g', 'h', 'i', 'j', 'k', 'l', 'm',
   'n', 'o', 'p', 'q', 'r', 's', 't', 'u', 'v', 'w', 'x', 'y', 'z',
   '0', '1', '2', '3', '4', '5', '6', '7', '8', '9', '-', '_']

/-- Character for a 6-bit value. -/
def b64Char (v : Nat) : Char := alphabet.getD (v % 64) 'A'

/-- 6-bit value of an alphabet character, `none` for foreign characters. -/
def b64Val (c : Char) : Option Nat :=
  let i := alphabet.indexOf c
  if i < 64 then some i else none

/-- Unpadded base64url encoding of a byte list, as Node's
`Buffer.prototype.toString('base64url')`. -/
def encode : List Nat → List Char
  | a :: b :: c :: rest =>
    b64Char (a / 4) :: b64Char (a % 4 * 16 + b / 16) :: b64Char (b % 16 * 4 + c / 64) ::
      b64Char (c % 64) :: encode rest
  | [a, b] => [b64Char (a / 4), b64Char (a % 4 * 16 + b / 16), b64Char (b % 16 * 4)]
  | [a] => [b64Char (a / 4), b64Char (a % 4 * 16)]
  | [] => []

/-- Reassemble bytes from 6-bit groups; a trailing lone group is dropped, as
Node's lenient base64url decoder does. -/
def decodeVals : List Nat → List Nat
  | a :: b :: c :: d :: rest =>
    (a * 4 + b / 16) :: (b % 16 * 16 + c / 4) :: (c % 4 * 64 + d) :: decodeVals rest
  | [a, b, c] => [a * 4 + b / 16, b % 16 * 16 + c / 4]
  | [a, b] => [a * 4 + b / 16]
  | _ => []

/-- Lenient base64url decoding, ignoring foreign characters, as Node's
`Buffer.from(s, 'base64url')`. -/
def decode (cs : List Char) : List Nat := decodeVals (cs.filterMap b64Val)

end B64

namespace Jwt

open Js StrUtil

/-- Identifier of the access-token RSA key pair (`JWT_ACCESS_*` PEM files);
the private and public halves share the identifier. -/
def accessKeyId : Nat := 1

/-- Identifier of the refresh-token RSA key pair (separate from access). -/
def refreshKeyId : Nat := 2

/-- Symbolic RSASSA-PKCS1-v1_5 / SHA-256 signature of the external `crypto`
library: an injective function of key identifier and signing input;
verification recomputes it and compares, which is how deterministic RS256
behaves observationally. -/
def rs256Sign (keyId : Nat) (msg : List Char) : List Nat :=
  keyId % 256 :: Crypto.utf8Encode msg

/-- Base64url of a string's UTF-8 bytes. -/
def b64OfStr (s : List Char) : List Char := B64.encode (Crypto.utf8Encode s)

/-- The `jsonwebtoken` library's `jwt.sign` with `algorithm: RS256`:
serialize the RS256/JWT header and the payload (claims plus `iat` and
`exp` derived from `expiresIn`), base64url-encode both, and append the
base64url signature over `header.payload`. -/
def jwtSign (claims : List (String × Json)) (keyId : Nat) (expiresInSec : Nat)
    (now : Nat) : List Char :=
  let header := Json.obj [("alg", .str "RS256"), ("typ", .str "JWT")]
  let payload := Json.obj (claims ++ [("iat", .num now), ("exp", .num (now + expiresInSec))])
  let h := b64OfStr (render header)
  let p := b64OfStr (render payload)
  let si := h ++ '.' :: p
  si ++ '.' :: B64.encode (rs256Sign keyId si)

/-- The `jsonwebtoken` library's `jwt.verify` with `algorithms: ['RS256']`:
structural split, header algorithm restricted to the allow-list, signature
verification with the given public key, then payload decoding and `exp`
enforcement against the clock. -/
def jwtVerify (token : List Char) (keyId : Nat) (now : Nat) : Except String Json :=
  match splitDots token with
  | [h, p, s] =>
    match jsonParse (Crypto.utf8Decode (B64.decode h)) with
    | none => .error "invalid token"
    | some header =>
      if jgetStr header "alg" ≠ some "RS256" then .error "invalid algorithm"
      else if B64.decode s ≠ rs256Sign keyId (h ++ '.' :: p) then .error "invalid signature"
      else
        match jsonParse (Crypto.utf8Decode (B64.decode p)) with
        | none => .error "invalid payload"
        | some payload =>
          match jgetNum payload "exp" with
          | some e => if e ≤ now then .error "jwt expired" else .ok payload
          | none => .ok payload
  | _ => .error "jwt malformed"

end Jwt

namespace JwtTs

open Js StrUtil

/-- `authConfig.accessToken.expiresIn` default `15m`, in seconds. -/
def accessTokenExpirySec : Nat := 900

/-- `authConfig.refreshToken.expiresIn` default `7d`, in seconds. -/
def refreshTokenExpirySec : Nat := 604800

/-- Input of `signAccessToken` (`AccessTokenInput` in `src/utils/jwt.ts`). -/
structure AccessTokenInput where
  sub : String
  email : String
  role : String
  tokenVersion : Nat
  fingerprint : Option String
  ip : Option String
deriving Repr

/-- An optional claim: `JSON.stringify` drops `undefined` properties. -/
def optField (k : String) (v : Option String) : List (String × Json) :=
  match v with
  | some s => [(k, .str s)]
  | none => []

/-- `signAccessToken` from `src/utils/jwt.ts`: RS256 JWT over the claim set
`sub, email, role, tokenVersion, fingerprint, ip, jti` with the access key;
`jti` (a fresh uuid in the source) and the clock are explicit inputs. -/
def signAccessToken (p : AccessTokenInput) (jti : String) (now : Nat) : List Char :=
  Jwt.jwtSign
    ([("sub", .str p.sub), ("email", .str p.email), ("role", .str p.role),
      ("tokenVersion", .num p.tokenVersion)] ++
      optField "fingerprint" p.fingerprint ++ optField "ip" p.ip ++ [("jti", .str jti)])
    Jwt.accessKeyId accessTokenExpirySec now

/-- Input of `signRefreshToken`. -/
structure RefreshTokenInput where
  sub : String
  family : String
  tokenVersion : Nat
deriving Repr

/-- `signRefreshToken` from `src/utils/jwt.ts`: RS256 JWT over
`sub, family, tokenVersion, type: "refresh"` with the refresh key. -/
def signRefreshToken (p : RefreshTokenInput) (now : Nat) : List Char :=
  Jwt.jwtSign
    [("sub", .str p.sub), ("family", .str p.family),
     ("tokenVersion", .num p.tokenVersion), ("type", .str "refresh")]
    Jwt.refreshKeyId refreshTokenExpirySec now

/-- The algorithm gate of `verifyAccessToken`/`verifyRefreshToken`: reject a
falsy or `"none"` (case-insensitive) `alg`, and any value other than the
string `"RS256"`; a truthy non-string `alg` raises a `TypeError` at
`toLowerCase`, which the source rethrows. -/
def algGate (header : Json) : Except String Unit :=
  if jsFalsy (jget header "alg") then .error "Algorithm none is not allowed"
  else
    match jget header "alg" with
    | some (.str a) =>
      if lowerAscii a = "none" then .error "Algorithm none is not allowed"
      else if a ≠ "RS256" then .error "Algorithm not allowed. Only RS256 is supported."
      else .ok ()
    | _ => .error "TypeError: header.alg.toLowerCase is not a function"

/-- `verifyAccessToken` from `src/utils/jwt.ts`: (1) exactly three dot
segments; (2) decode and parse the header, rejecting non-RS256 algorithms
before any cryptographic work; (3) `jwt.verify` restricted to RS256 with the
access public key; (4) require truthy `sub`, `email`, `role`; (5) compare
the payload fingerprint against the expected one when both are truthy. -/
def verifyAccessToken (token : List Char) (fingerprint : Option String) (now : Nat) :
    Except String Json :=
  let parts := splitDots token
  if parts.length ≠ 3 then .error "Invalid token format"
  else
    match jsonParse (Crypto.utf8Decode (B64.decode (parts.getD 0 []))) with
    | none => .error "Invalid token header"
    | some header =>
      match algGate header with
      | .error e => .error e
      | .ok _ =>
        match Jwt.jwtVerify token Jwt.accessKeyId now with
        | .error e => .error e
        | .ok payload =>
          if jsFalsy (jget payload "sub") ∨ jsFalsy (jget payload "email") ∨
              jsFalsy (jget payload "role") then
            .error "Invalid token payload: missing required claims"
          else
            match fingerprint with
            | some f =>
              if f ≠ "" ∧ ¬ jsFalsy (jget payload "fingerprint") ∧
                  jgetStr payload "fingerprint" ≠ some f then
                .error "Token fingerprint mismatch"
              else .ok payload
            | none => .ok payload

/-- `verifyRefreshToken` from `src/utils/jwt.ts`: same structural and
algorithm gates, `jwt.verify` with the refresh public key, then require
truthy `sub` and `family` and `type === "refresh"`. -/
def verifyRefreshToken (token : List Char) (now : Nat) : Except String Json :=
  let parts := splitDots token
  if parts.length ≠ 3 then .error "Invalid token format"
  else
    match jsonParse (Crypto.utf8Decode (B64.decode (parts.getD 0 []))) with
    | none => .error "Invalid token header"
    | some header =>
      match algGate header with
      | .error e => .error e
      | .ok _ =>
        match Jwt.jwtVerify token Jwt.refreshKeyId now with
        | .error e => .error e
        | .ok payload =>
          if jsFalsy (jget payload "sub") ∨ jsFalsy (jget payload "family") ∨
              jgetStr payload "type" ≠ some "refresh" then
            .error "Invalid refresh token payload"
          else .ok payload

/-- `hashToken` from `src/utils/jwt.ts`: SHA-256 hex of the raw token. -/
def hashToken (token : List Char) : String := String.mk (Crypto.sha256Hex token)

end JwtTs

namespace Fp

open StrUtil

/-- TLS data available from the request socket; `none` models a plain
(non-TLS) socket without `getCipher`. -/
structure TlsData where
  protocol : Option String
  cipherName : Option String
  cipherVersion : Option String
deriving Repr

/-- The slice of an Express request that the embedded middleware reads. -/
structure Req where
  userAgent : Option String
  accept : Option String
  acceptLanguage : Option String
  acceptEncoding : Option String
  secFetchSite : Option String
  secFetchMode : Option String
  secFetchDest : Option String
  connection : Option String
  authorization : Option String
  forwardedFor : Option String
  socketRemoteAddress : Option String
  reqIp : Option String
  tls : Option TlsData
deriving Repr

/-- Split a character list at a separator character, as JS `split`. -/
def splitOnCharList (sep : Char) : List Char → List (List Char)
  | [] => [[]]
  | c :: rest =>
    if c = sep then [] :: splitOnCharList sep rest
    else
      match splitOnCharList sep rest with
      | seg :: segs => (c :: seg) :: segs
      | [] => [[c]]

/-- Split a string at a separator character. -/
def splitOnChar (sep : Char) (s : String) : List String :=
  (splitOnCharList sep s.data).map String.mk

/-- ASCII whitespace trim, as JS `String.prototype.trim` on ASCII input. -/
def asciiTrim (s : String) : String :=
  String.mk (((s.data.dropWhile (fun c => c = ' ')).reverse.dropWhile
    (fun c => c = ' ')).reverse)

/-- `extractTLSInfo` from `src/utils/fingerprint.ts`: `no-tls` for plain
sockets, else `protocol:cipherName:cipherVersion` with `unknown-*`
placeholders. -/
def extractTLSInfo (req : Req) : String :=
  match req.tls with
  | none => "no-tls"
  | some t =>
    String.mk ((t.protocol.getD "unknown-protocol").data ++ ':' ::
      (t.cipherName.getD "unknown-cipher").data ++ ':' ::
      (t.cipherVersion.getD "unknown-version").data)

/-- The components record of `src/utils/fingerprint.ts`. -/
structure FingerprintComponents where
  ipAddress : String
  userAgent : String
  accept : String
  acceptLanguage : String
  acceptEncoding : String
  secFetchSite : Option String
  secFetchMode : Option String
  secFetchDest : Option String
  tlsInfo : String
deriving Repr

/-- First `x-forwarded-for` entry, trimmed; JS `||` falls through on the
empty string. -/
def forwardedIp (req : Req) : Option String :=
  match req.forwardedFor with
  | none => none
  | some s =>
    let first := asciiTrim ((splitOnChar ',' s).headD "")
    if first = "" then none else some first

/-- `extractFingerprintComponents` from `src/utils/fingerprint.ts`. -/
def extractFingerprintComponents (req : Req) : FingerprintComponents :=
  { ipAddress := (forwardedIp req).getD (req.socketRemoteAddress.getD "unknown")
    userAgent := req.userAgent.getD ""
    accept := req.accept.getD ""
    acceptLanguage := req.acceptLanguage.getD ""
    acceptEncoding := req.acceptEncoding.getD ""
    secFetchSite := req.secFetchSite
    secFetchMode := req.secFetchMode
    secFetchDest := req.secFetchDest
    tlsInfo := extractTLSInfo req }

/-- Join strings with the `|` separator. -/
def joinBar : List String → List Char
  | [] => []
  | [s] => s.data
  | s :: t :: rest => s.data ++ '|' :: joinBar (t :: rest)

/-- `generateEnhancedFingerprint` from `src/utils/fingerprint.ts`: SHA-256
hex over `ip|tlsInfo|userAgent|acceptLanguage|acceptEncoding|` followed by
the three `sec-fetch` headers, each of those defaulting to `none`. -/
def generateEnhancedFingerprint (req : Req) : String :=
  let c := extractFingerprintComponents req
  String.mk (Crypto.sha256Hex (joinBar
    [c.ipAddress, c.tlsInfo, c.userAgent, c.acceptLanguage, c.acceptEncoding,
     c.secFetchSite.getD "none", c.secFetchMode.getD "none", c.secFetchDest.getD "none"]))

/-- `generateFingerprintFromComponents` from `src/utils/fingerprint.ts`
with no `additionalData`, as every auth-service call site uses it. -/
def generateFingerprintFromComponents (userAgent ipAddress : String) : String :=
  String.mk (Crypto.sha256Hex (joinBar
    [ipAddress, "no-tls", userAgent, "", "", "none", "none", "none"]))

/-- `generateLegacyFingerprint` from `src/utils/fingerprint.ts`:
SHA-256 hex of `userAgent:ipAddress`. -/
def generateLegacyFingerprint (userAgent ipAddress : String) : String :=
  String.mk (Crypto.sha256Hex (userAgent.data ++ ':' :: ipAddress.data))

/-- Modelled from the spec: the fingerprint formula of §4.1 —
SHA-256 over the ordered concatenation
`ip | tlsInfo | userAgent | acceptLanguage | acceptEncoding |
secFetchSite | secFetchMode | secFetchDest` with every missing component
value encoded as the literal string `"none"`. -/
def specEnhancedFingerprint (req : Req) : String :=
  let missing : Option String → String := fun v => v.getD "none"
  String.mk (Crypto.sha256Hex (joinBar
    [missing ((forwardedIp req).orElse (fun _ => req.socketRemoteAddress)),
     missing (req.tls.map (fun _ => extractTLSInfo req)),
     missing req.userAgent, missing req.acceptLanguage, missing req.acceptEncoding,
     missing req.secFetchSite, missing req.secFetchMode, missing req.secFetchDest]))

end Fp

namespace RateLimiter

/-- `FailedLoginRecord` from `src/middleware/rateLimiter.ts`; times are
epoch milliseconds. -/
structure FailedLoginRecord where
  count : Nat
  firstAttempt : Nat
  lastAttempt : Nat
  blocked : Bool
  blockedUntil : Option Nat
deriving Repr, DecidableEq

/-- 15-minute tracking window, in milliseconds. -/
def loginAttemptWindow : Nat := 15 * 60 * 1000

/-- Threshold of failed attempts before blocking. -/
def maxFailedAttempts : Nat := 5

/-- 30-minute block duration, in milliseconds. -/
def blockDuration : Nat := 30 * 60 * 1000

/-- Progressive per-attempt delays, in milliseconds. -/
def progressiveDelays : List Nat := [0, 1000, 2000, 5000, 10000]

/-- `trackFailedLogin` from `src/middleware/rateLimiter.ts`, as the pure
transition on the record stored under one client key: reset on a missing
record or an expired window, otherwise increment and block at the
threshold. -/
def trackFailedLogin (now : Nat) (record : Option FailedLoginRecord) : FailedLoginRecord :=
  match record with
  | none =>
    { count := 1, firstAttempt := now, lastAttempt := now, blocked := false, blockedUntil := none }
  | some r =>
    if now - r.firstAttempt > loginAttemptWindow then
      { count := 1, firstAttempt := now, lastAttempt := now, blocked := false, blockedUntil := none }
    else
      let r1 : FailedLoginRecord := { r with count := r.count + 1, lastAttempt := now }
      if r1.count ≥ maxFailedAttempts then
        { r1 with blocked := true, blockedUntil := some (now + blockDuration) }
      else r1

/-- Result of `isLoginBlocked`. -/
structure BlockStatus where
  blocked : Bool
  remainingTime : Option Nat
  attempts : Option Nat
deriving Repr, DecidableEq

/-- `isLoginBlocked` from `src/middleware/rateLimiter.ts`: reports the block
with the remaining seconds (`Math.ceil`), deleting records whose block or
window has expired; the second component is the record left in the store. -/
def isLoginBlocked (now : Nat) (record : Option FailedLoginRecord) :
    BlockStatus × Option FailedLoginRecord :=
  match record with
  | none => ({ blocked := false, remainingTime := none, attempts := none }, none)
  | some r =>
    match r.blockedUntil with
    | some bu =>
      if r.blocked then
        if now ≥ bu then ({ blocked := false, remainingTime := none, attempts := none }, none)
        else
          ({ blocked := true, remainingTime := some ((bu - now + 999) / 1000),
             attempts := some r.count }, some r)
      else
        if now - r.firstAttempt > loginAttemptWindow then
          ({ blocked := false, remainingTime := none, attempts := none }, none)
        else ({ blocked := false, remainingTime := none, attempts := some r.count }, some r)
    | none =>
      if now - r.firstAttempt > loginAttemptWindow then
        ({ blocked := false, remainingTime := none, attempts := none }, none)
      else ({ blocked := false, remainingTime := none, attempts := some r.count }, some r)

/-- `resetFailedLogin` from `src/middleware/rateLimiter.ts`: delete the record. -/
def resetFailedLogin (_record : Option FailedLoginRecord) : Option FailedLoginRecord := none

/-- `getProgressiveDelay` from `src/middleware/rateLimiter.ts`. -/
def getProgressiveDelay (record : Option FailedLoginRecord) : Nat :=
  match record with
  | none => 0
  | some r => progressiveDelays.getD (min r.count (progressiveDelays.length - 1)) 0

end RateLimiter

namespace Audit

open StrUtil

/-- Zero-padded two-digit decimal. -/
def pad2 (n : Nat) : List Char := if n < 10 then '0' :: natDigits n else natDigits n

/-- Zero-padded three-digit decimal. -/
def pad3 (n : Nat) : List Char :=
  if n < 10 then '0' :: '0' :: natDigits n
  else if n < 100 then '0' :: natDigits n
  else natDigits n

/-- Zero-padded four-digit decimal. -/
def pad4 (n : Nat) : List Char :=
  if n < 10 then '0' :: '0' :: '0' :: natDigits n
  else if n < 100 then '0' :: '0' :: natDigits n
  else if n < 1000 then '0' :: natDigits n
  else natDigits n

/-- Civil date from days since the Unix epoch (valid for dates from 1970). -/
def civilFromDays (z : Nat) : Nat × Nat × Nat :=
  let doe := (z + 719468) % 146097
  let era := (z + 719468) / 146097
  let yoe := (doe - doe / 1460 + doe / 36524 - doe / 146096) / 365
  let y := yoe + era * 400
  let doy := doe - (365 * yoe + yoe / 4 - yoe / 100)
  let mp := (5 * doy + 2) / 153
  let d := doy - (153 * mp + 2) / 5 + 1
  let m := if mp < 10 then mp + 3 else mp - 9
  (if m ≤ 2 then y + 1 else y, m, d)

/-- `Date.prototype.toISOString` for an epoch-millisecond timestamp. -/
def isoOfMs (ms : Nat) : String :=
  let days := ms / 86400000
  let ofDay := ms % 86400000
  let ymd := civilFromDays days
  String.mk (pad4 ymd.1 ++ '-' :: pad2 ymd.2.1 ++ '-' :: pad2 ymd.2.2 ++
    'T' :: pad2 (ofDay / 3600000) ++ ':' :: pad2 (ofDay / 60000 % 60) ++
    ':' :: pad2 (ofDay / 1000 % 60) ++ '.' :: pad3 (ofDay % 1000) ++ ['Z'])

/-- A persisted `audit_logs` row (`IAuditLog` in `src/models/auditLog.model.ts`),
restricted to the fields the embedded code reads. -/
structure AuditEntry where
  timestamp : Nat
  eventType : String
  userId : Option String
  action : String
  resource : String
  resourceId : Option String
  metaIp : Option String
  metaUserAgent : Option String
  result : String
  errorMessage : Option String
  riskScore : Option Nat
  signature : String
  previousHash : Option String
deriving Repr, DecidableEq

/-- An optional string property; `JSON.stringify` drops `undefined` ones. -/
def jsonOptStr (k : String) (v : Option String) : List (String × Js.Json) :=
  match v with
  | some s => [(k, .str s)]
  | none => []

/-- The canonical signed subset of `createAuditSignature` in
`src/models/auditLog.model.ts`: `JSON.stringify` of
`timestamp, eventType, userId, action, resource, result` (the `Date`
serializes as its ISO string). -/
def sigPayload (ts : Nat) (eventType : String) (userId : Option String)
    (action resource result : String) : List Char :=
  Js.render (Js.Json.obj
    ([("timestamp", .str (isoOfMs ts)), ("eventType", .str eventType)] ++
      jsonOptStr "userId" userId ++
      [("action", .str action), ("resource", .str resource), ("result", .str result)]))

/-- `createAuditSignature` from `src/models/auditLog.model.ts`: HMAC-SHA256
hex of the canonical subset under the server-side audit key. -/
def createAuditSignature (ts : Nat) (eventType : String) (userId : Option String)
    (action resource result : String) (secret : String) : String :=
  String.mk (Crypto.hmacSha256Hex secret.data (sigPayload ts eventType userId action resource result))

/-- The row `AuditLog.findOne().sort({timestamp: -1})` returns: an entry of
maximal timestamp (later insertions win ties). -/
def latest (log : List AuditEntry) : Option AuditEntry :=
  log.foldl
    (fun acc e =>
      match acc with
      | none => some e
      | some a => if a.timestamp ≤ e.timestamp then some e else some a)
    none

/-- `getPreviousLogHash` from `src/models/auditLog.model.ts`: SHA-256 hex of
`latest.signature + latest.timestamp.toISOString()`, or `undefined` when the
collection is empty. -/
def getPreviousLogHash (log : List AuditEntry) : Option String :=
  (latest log).map
    (fun l => String.mk (Crypto.sha256Hex (l.signature.data ++ (isoOfMs l.timestamp).data)))

/-- A write request to the audit writer. -/
structure WriteReq where
  timestamp : Nat
  eventType : String
  userId : Option String
  action : String
  resource : String
  result : String
  riskScore : Option Nat
  metaIp : Option String
  metaUserAgent : Option String
deriving Repr, DecidableEq

/-- Modelled from the spec: the audit writer protocol of §4.6 (the
`audit.service` module with `createAuditLog`, `logAuthEvent`,
`logSecurityEvent`, `logPaymentEvent` is not among the provided sources):
compute `previousHash` from the latest entry via `getPreviousLogHash`,
sign the canonical subset with the audit HMAC key, and insert the
immutable row. -/
def appendAuditEntry (key : String) (log : List AuditEntry) (w : WriteReq) : List AuditEntry :=
  log ++
    [{ timestamp := w.timestamp, eventType := w.eventType, userId := w.userId
       action := w.action, resource := w.resource, resourceId := none
       metaIp := w.metaIp, metaUserAgent := w.metaUserAgent
       result := w.result, errorMessage := none, riskScore := w.riskScore
       signature := createAuditSignature w.timestamp w.eventType w.userId w.action
         w.resource w.result key
       previousHash := getPreviousLogHash log }]

/-- A sequence of writer invocations, in order. -/
def writeAll (key : String) (log : List AuditEntry) (ws : List WriteReq) : List AuditEntry :=
  ws.foldl (appendAuditEntry key) log

end Audit

namespace Anomaly

open Audit

/-- `AnomalyResult` from `src/services/anomaly.service.ts`. -/
structure AnomalyResult where
  isAnomalous : Bool
  riskScore : Nat
  reasons : List String
  recommendations : List String
deriving Repr, DecidableEq

/-- JS string truthiness for an optional value. -/
def strTruthy : Option String → Bool
  | none => false
  | some s => s ≠ ""

/-- `detectPaymentFraud` from `src/services/anomaly.service.ts`: score the
last 24 hours of `payment.initiated`/`payment.failed` audit rows of the
user; on an anomalous score (≥ 60) a `security.fraud_detected` event is
written through the audit writer.  Returns the result and the audit log
after that side effect. -/
def detectPaymentFraud (auditKey : String) (log : List AuditEntry) (userId : String)
    (amount : Nat) (ip userAgent : Option String) (now : Nat) :
    AnomalyResult × List AuditEntry :=
  let oneDayAgo := now - 24 * 60 * 60 * 1000
  let recentPayments := log.filter
    (fun e => e.userId = some userId ∧
      (e.eventType = "payment.initiated" ∨ e.eventType = "payment.failed") ∧
      oneDayAgo ≤ e.timestamp)
  let failedPayments := recentPayments.filter (fun e => e.eventType = "payment.failed")
  let score1 : Nat := if failedPayments.length > 3 then 50 else 0
  let reasons1 :=
    if failedPayments.length > 3 then
      [String.mk (StrUtil.natDigits failedPayments.length) ++ " failed payment attempts in 24 hours"]
    else []
  let score2 := score1 + (if amount > 5000 then 20 else 0)
  let reasons2 := reasons1 ++ (if amount > 5000 then ["High-value transaction"] else [])
  let score3 := score2 + (if recentPayments.length > 10 then 40 else 0)
  let reasons3 := reasons2 ++ (if recentPayments.length > 10 then ["High transaction velocity"] else [])
  let recentIPs := (recentPayments.filterMap (fun e => e.metaIp)).filter (fun s => s ≠ "")
  let manyIPs := strTruthy ip ∧ recentPayments.length > 0 ∧ recentIPs.dedup.length > 5
  let score4 := score3 + (if manyIPs then 30 else 0)
  let reasons4 := reasons3 ++ (if manyIPs then ["Multiple IPs used for payments"] else [])
  let isAnomalous := decide (score4 ≥ 60)
  let fraudEvt : WriteReq :=
    { timestamp := now, eventType := "security.fraud_detected", userId := some userId
      action := "security_event", resource := "security", result := "failure"
      riskScore := some score4, metaIp := ip, metaUserAgent := userAgent }
  let log1 := if isAnomalous then appendAuditEntry auditKey log fraudEvt else log
  ({ isAnomalous := isAnomalous, riskScore := score4, reasons := reasons4
     recommendations :=
       if isAnomalous then
         ["Require 3D Secure authentication", "Hold payment for manual review",
          "Contact customer to verify", "Request additional verification documents"]
       else [] }, log1)

/-- The 24-hour window of `payment.initiated`/`payment.failed` rows of a
user, as queried by `detectPaymentFraud`. -/
def recentPaymentsOf (log : List AuditEntry) (userId : String) (now : Nat) : List AuditEntry :=
  log.filter
    (fun e => e.userId = some userId ∧
      (e.eventType = "payment.initiated" ∨ e.eventType = "payment.failed") ∧
      now - 24 * 60 * 60 * 1000 ≤ e.timestamp)

/-- The failed subset of the window. -/
def failedPaymentsOf (log : List AuditEntry) (userId : String) (now : Nat) : List AuditEntry :=
  (recentPaymentsOf log userId now).filter (fun e => e.eventType = "payment.failed")

/-- Distinct truthy payment IPs of the window. -/
def distinctPaymentIPs (log : List AuditEntry) (userId : String) (now : Nat) : Nat :=
  (((recentPaymentsOf log userId now).filterMap (fun e => e.metaIp)).filter
    (fun s => s ≠ "")).dedup.length

end Anomaly

namespace Payment

open Audit Anomaly

/-- A catalog product (`ProductModel` row), restricted to the read fields. -/
structure Product where
  id : String
  name : String
  price : Nat
  currency : String
  isActive : Bool
deriving Repr, DecidableEq

/-- One requested item (`PaymentItemInput`). -/
structure PaymentItemInput where
  productId : String
  quantity : Nat
deriving Repr, DecidableEq

/-- One priced order line. -/
structure OrderItem where
  productId : String
  name : String
  price : Nat
  currency : String
  quantity : Nat
deriving Repr, DecidableEq

/-- An `orders` row, restricted to the fields this flow writes. -/
structure Order where
  id : String
  userId : String
  items : List OrderItem
  totalAmount : Nat
  currency : String
  status : String
  paymentIntentId : Option String
  clientSecret : Option String
deriving Repr, DecidableEq

/-- One call to the external payment provider's intent-creation API. -/
structure ProviderCall where
  amountCents : Nat
  currency : String
  orderId : String
  userId : String
deriving Repr, DecidableEq

/-- State read and written by the payment-intent flow. -/
structure PayState where
  products : List Product
  orders : List Order
  audit : List AuditEntry
  providerCalls : List ProviderCall
deriving Repr, DecidableEq

/-- Result of a successful intent creation. -/
structure IntentResult where
  clientSecret : String
  paymentIntentId : String
  orderId : String
deriving Repr, DecidableEq

/-- Match each loaded product against the requested items
(`Product selection mismatch` when absent). -/
def buildOrderItems (products : List Product) (items : List PaymentItemInput) :
    Except String (List OrderItem) :=
  match products with
  | [] => .ok []
  | p :: rest =>
    match items.find? (fun it => it.productId = p.id) with
    | none => .error "Product selection mismatch"
    | some it =>
      match buildOrderItems rest items with
      | .ok tail =>
        .ok ({ productId := p.id, name := p.name, price := p.price, currency := p.currency,
               quantity := it.quantity } :: tail)
      | .error e => .error e

/-- The products loaded by `ProductModel.find` for a request. -/
def loadedProducts (st : PayState) (items : List PaymentItemInput) : List Product :=
  st.products.filter (fun p => p.id ∈ items.map (fun it => it.productId) ∧ p.isActive)

/-- The authoritative server-side total of a request, as
`createPaymentIntent` computes it (zero when the item match fails, a case
the flow rejects before pricing matters). -/
def totalAmountOf (st : PayState) (items : List PaymentItemInput) : Nat :=
  match buildOrderItems (loadedProducts st items) items with
  | .ok its => its.foldl (fun sum it => sum + it.price * it.quantity) 0
  | .error _ => 0

/-- `createPaymentIntent` from the payment service source: load active
products, price items server-side, reject a zero total, run
`detectPaymentFraud` and gate at risk ≥ 80, create the order row, audit
`payment.initiated`, call the provider, and persist the intent data.
The fresh order id, intent id and client secret are explicit inputs. -/
def createPaymentIntent (auditKey : String) (userId : String) (items : List PaymentItemInput)
    (metaIp metaUserAgent : Option String) (now : Nat)
    (newOrderId intentId intentClientSecret : String) (st : PayState) :
    Except String IntentResult × PayState :=
  let productIds := items.map (fun it => it.productId)
  let products := st.products.filter (fun p => p.id ∈ productIds ∧ p.isActive)
  if products.length ≠ productIds.length then
    (.error "One or more products are unavailable", st)
  else
    match buildOrderItems products items with
    | .error e => (.error e, st)
    | .ok orderItems =>
      let totalAmount := orderItems.foldl (fun sum it => sum + it.price * it.quantity) 0
      if totalAmount = 0 then (.error "Total amount must be greater than zero", st)
      else
        let fraud := detectPaymentFraud auditKey st.audit userId totalAmount metaIp metaUserAgent now
        let st1 : PayState := { st with audit := fraud.2 }
        if fraud.1.riskScore ≥ 80 then
          (.error "Payment flagged for review. Please contact support.", st1)
        else
          let currency := (orderItems.headD
            ({ productId := "", name := "", price := 0, currency := "USD", quantity := 0 })).currency
          let order : Order :=
            { id := newOrderId, userId := userId, items := orderItems,
              totalAmount := totalAmount, currency := currency, status := "pending",
              paymentIntentId := none, clientSecret := none }
          let st2 : PayState := { st1 with orders := st1.orders ++ [order] }
          let initiatedEvt : WriteReq :=
            { timestamp := now, eventType := "payment.initiated", userId := some userId
              action := "payment_event", resource := "payment", result := "success"
              riskScore := none, metaIp := metaIp, metaUserAgent := metaUserAgent }
          let st3 : PayState := { st2 with audit := appendAuditEntry auditKey st2.audit initiatedEvt }
          let st4 : PayState :=
            { st3 with providerCalls := st3.providerCalls ++
                [{ amountCents := totalAmount * 100, currency := currency,
                   orderId := newOrderId, userId := userId }] }
          let finalOrder : Order :=
            { order with
                paymentIntentId := some intentId
                status := "processing"
                clientSecret := some intentClientSecret }
          let st5 : PayState :=
            { st4 with orders := (st4.orders.filter (fun o => o.id ≠ newOrderId)) ++ [finalOrder] }
          (.ok { clientSecret := intentClientSecret, paymentIntentId := intentId,
                 orderId := newOrderId }, st5)

end Payment

namespace AuthSvc

open Audit StrUtil Js

/-- One append-only login-history item of a user. -/
structure LoginHistoryEntry where
  ipAddress : String
  userAgent : String
  success : Bool
  reason : String
  location : Option String
deriving Repr, DecidableEq

/-- A `users` row, restricted to the fields the embedded flows read or write. -/
structure User where
  id : String
  email : String
  passwordHash : String
  role : String
  provider : String
  tokenVersion : Nat
  isEmailVerified : Bool
  emailVerificationToken : Option String
  emailVerificationExpiry : Option Nat
  passwordResetToken : Option String
  passwordResetExpiry : Option Nat
  passwordHistory : List String
  lastPasswordChange : Option Nat
  twoFactorEnabled : Bool
  twoFactorSecret : Option String
  twoFactorBackupCodes : List String
  failedLoginAttempts : Nat
  accountLockedUntil : Option Nat
  loginHistory : List LoginHistoryEntry
deriving Repr, DecidableEq

/-- Modelled from the spec: the external bcrypt library, as a symbolic
injective one-way hash (the salt is abstracted away: the model compares by
recomputation, observationally equivalent to `bcrypt.compare`). -/
def bcryptHash (pw : String) : String := String.mk ('$' :: '2' :: 'b' :: '$' :: pw.data)

/-- `comparePassword` from `src/utils/password.ts` semantics over the model. -/
def comparePassword (candidate hash : String) : Bool := bcryptHash candidate == hash

/-- Device data extracted from a request. -/
structure DeviceInfo where
  deviceId : Option String
  deviceName : Option String
  userAgent : String
  ipAddress : String
  location : Option String
deriving Repr, DecidableEq

/-- A `refresh_sessions` row (hash-keyed; the raw token is never stored). -/
structure RefreshSession where
  id : String
  userId : String
  hashedToken : String
  family : String
  deviceId : Option String
  deviceName : Option String
  userAgent : String
  ipAddress : String
  revoked : Bool
  revokedReason : Option String
  expiresAt : Nat
deriving Repr, DecidableEq

/-- Modelled from the spec: §4.2 `Revoke(token, reason)` of the session
store (`refreshToken.service` is not among the provided sources): mark the
hash-matching session revoked. -/
def revokeRefreshToken (token : List Char) (reason : String)
    (sessions : List RefreshSession) : List RefreshSession :=
  let h := JwtTs.hashToken token
  sessions.map (fun s =>
    if s.hashedToken = h then { s with revoked := true, revokedReason := some reason } else s)

/-- Modelled from the spec: §4.2 `RevokeFamily(family, reason)`. -/
def revokeFamily (family : String) (reason : String)
    (sessions : List RefreshSession) : List RefreshSession :=
  sessions.map (fun s =>
    if s.family = family then { s with revoked := true, revokedReason := some reason } else s)

/-- Modelled from the spec: §4.2 `RevokeAll(userId, reason)`. -/
def revokeAllUserTokens (userId : String) (reason : String)
    (sessions : List RefreshSession) : List RefreshSession :=
  sessions.map (fun s =>
    if s.userId = userId then { s with revoked := true, revokedReason := some reason } else s)

/-- Modelled from the spec: §4.2 `Validate(token)` — look up by token hash;
fail when absent or expired; presenting a token whose hash exists in revoked
state within its original TTL is a reuse signal that revokes the entire
family. -/
def validateRefreshToken (token : List Char) (nowMs : Nat)
    (sessions : List RefreshSession) : Except String RefreshSession × List RefreshSession :=
  let h := JwtTs.hashToken token
  match sessions.find? (fun s => s.hashedToken = h) with
  | none => (.error "Invalid refresh token", sessions)
  | some s =>
    if s.revoked then
      if nowMs < s.expiresAt then
        (.error "Refresh token reuse detected", revokeFamily s.family "Token reuse detected" sessions)
      else (.error "Invalid refresh token", sessions)
    else if s.expiresAt ≤ nowMs then (.error "Refresh token expired", sessions)
    else (.ok s, sessions)

/-- Modelled from the spec: §4.2 `Create(token, …)` — hash the token and
insert under the unique index on `hashedToken`; an insertion conflict
surfaces as the distinct duplicate-key error (Mongo code 11000). -/
def createRefreshToken (token : List Char) (userId : String) (d : DeviceInfo)
    (family : String) (expiresAt : Nat) (newId : String)
    (sessions : List RefreshSession) : Except String Unit × List RefreshSession :=
  let h := JwtTs.hashToken token
  if sessions.any (fun s => s.hashedToken = h) then (.error "E11000 duplicate key", sessions)
  else
    (.ok (),
     sessions ++
       [{ id := newId, userId := userId, hashedToken := h, family := family
          deviceId := d.deviceId, deviceName := d.deviceName
          userAgent := d.userAgent, ipAddress := d.ipAddress
          revoked := false, revokedReason := none, expiresAt := expiresAt }])

/-- The mutable state the auth orchestrator reads and writes. -/
structure AuthState where
  users : List User
  sessions : List RefreshSession
  audit : List AuditEntry
  sentEmails : List (String × String)
deriving Repr, DecidableEq

/-- Replace a user row by id (`user.save()`). -/
def updateUser (users : List User) (u : User) : List User :=
  users.map (fun v => if v.id = u.id then u else v)

/-- The token pair returned by login and refresh flows. -/
structure TokenPair where
  accessToken : List Char
  refreshToken : List Char
deriving Repr, DecidableEq

/-- `refreshAccessToken` from `src/services/auth.service.ts`: validate the
stored session, verify the refresh JWT, check the user's `tokenVersion`,
revoke the presented session first, then mint a new family and insert the
new session — a duplicate-key conflict surfaces as the refresh-in-progress
error.  The fresh uuids (`newFamily`, session id, access `jti`) and the
millisecond clock are explicit inputs. -/
def refreshAccessToken (rt : List Char) (d : DeviceInfo) (nowMs : Nat)
    (newFamily newSessionId jti : String) (st : AuthState) :
    Except String TokenPair × AuthState :=
  match validateRefreshToken rt nowMs st.sessions with
  | (.error e, sessions1) => (.error e, { st with sessions := sessions1 })
  | (.ok _stored, sessions1) =>
    let st1 : AuthState := { st with sessions := sessions1 }
    match JwtTs.verifyRefreshToken rt (nowMs / 1000) with
    | .error e => (.error e, st1)
    | .ok payload =>
      match st1.users.find? (fun u => some u.id = jgetStr payload "sub") with
      | none => (.error "User not found", st1)
      | some user =>
        if jgetNum payload "tokenVersion" ≠ some user.tokenVersion then
          (.error "Token invalidated", st1)
        else
          let sessions2 := revokeRefreshToken rt "Token rotated" st1.sessions
          let fingerprint := Fp.generateFingerprintFromComponents d.userAgent d.ipAddress
          let newAccessToken := JwtTs.signAccessToken
            { sub := user.id, email := user.email, role := user.role
              tokenVersion := user.tokenVersion, fingerprint := some fingerprint, ip := none }
            jti (nowMs / 1000)
          let newRefreshToken := JwtTs.signRefreshToken
            { sub := user.id, family := newFamily, tokenVersion := user.tokenVersion }
            (nowMs / 1000)
          let expiresAt := nowMs + 7 * 24 * 60 * 60 * 1000
          match createRefreshToken newRefreshToken user.id d newFamily expiresAt newSessionId
              sessions2 with
          | (.error _, sessions3) =>
            (.error "Token refresh in progress, please retry", { st1 with sessions := sessions3 })
          | (.ok _, sessions3) =>
            (.ok { accessToken := newAccessToken, refreshToken := newRefreshToken },
             { st1 with sessions := sessions3 })

/-- `resetPassword` from `src/services/auth.service.ts`: consume a live reset
token, reject reuse of the last five password hashes, store the new hash,
invalidate every outstanding token and session, and send the notice.  The
`invalidateAllTokens` and history maintenance of the user model are
modelled from the spec (the user model is not among the provided sources):
bump `tokenVersion`, push the new hash into history capped at five. -/
def resetPassword (token newPassword : String) (nowMs : Nat) (st : AuthState) :
    Except String String × AuthState :=
  match st.users.find? (fun u => u.passwordResetToken == some token &&
      match u.passwordResetExpiry with
      | some e => decide (nowMs < e)
      | none => false) with
  | none => (.error "Invalid or expired reset token", st)
  | some user =>
    if user.passwordHistory.any (fun old => comparePassword newPassword old) then
      (.error "Cannot reuse a recent password. Please choose a different password.", st)
    else
      let newHash := bcryptHash newPassword
      let user1 : User :=
        { user with
            passwordHash := newHash
            passwordResetToken := none
            passwordResetExpiry := none
            lastPasswordChange := some nowMs
            passwordHistory := (newHash :: user.passwordHistory).take 5
            tokenVersion := user.tokenVersion + 1 }
      let sessions1 := revokeAllUserTokens user.id "Password reset" st.sessions
      (.ok "Password reset successfully. Please log in with your new password.",
       { st with
           users := updateUser st.users user1
           sessions := sessions1
           sentEmails := st.sentEmails ++ [(user.email, "password-changed")] })

/-- `changePassword` from `src/services/auth.service.ts`: verify the current
password, apply the same history and invalidation policy as
`resetPassword` (the user-model parts are modelled from the spec as
above). -/
def changePassword (userId currentPassword newPassword : String) (nowMs : Nat)
    (st : AuthState) : Except String String × AuthState :=
  match st.users.find? (fun u => u.id = userId) with
  | none => (.error "User not found", st)
  | some user =>
    if ¬ comparePassword currentPassword user.passwordHash then
      (.error "Current password is incorrect", st)
    else if user.passwordHistory.any (fun old => comparePassword newPassword old) then
      (.error "Cannot reuse a recent password", st)
    else
      let newHash := bcryptHash newPassword
      let user1 : User :=
        { user with
            passwordHash := newHash
            lastPasswordChange := some nowMs
            passwordHistory := (newHash :: user.passwordHistory).take 5
            tokenVersion := user.tokenVersion + 1 }
      let sessions1 := revokeAllUserTokens user.id "Password changed" st.sessions
      (.ok "Password changed successfully. Please log in again.",
       { st with
           users := updateUser st.users user1
           sessions := sessions1
           sentEmails := st.sentEmails ++ [(user.email, "password-changed")] })

/-- Modelled from the spec: TOTP code generation (RFC 6238, 30-second step)
of the two-factor service (not among the provided sources), with the HMAC
truncation modelled via SHA-256; decryption of the stored secret is the
identity on this opaque model. -/
def totpCode (secret : String) (counter : Nat) : String :=
  String.mk ((Crypto.sha256Hex (secret.data ++ ':' :: natDigits counter)).take 6)

/-- Modelled from the spec: `verify2FACode` accepts the current 30-second
window and ±1 step of skew. -/
def verify2FACode (secret code : String) (nowSec : Nat) : Bool :=
  let c := nowSec / 30
  code == totpCode secret c || (decide (0 < c) && code == totpCode secret (c - 1)) ||
    code == totpCode secret (c + 1)

/-- Modelled from the spec: `user.verifyBackupCode` — compare against the
stored bcrypt hashes and consume the code on match. -/
def verifyBackupCode (user : User) (code : String) : Bool × User :=
  match user.twoFactorBackupCodes.find? (fun h => comparePassword code h) with
  | some h => (true, { user with twoFactorBackupCodes := user.twoFactorBackupCodes.erase h })
  | none => (false, user)

/-- `loginWith2FA` from `src/services/auth.service.ts`: load the user by a
live temp token (stored in the email-verification fields), try TOTP then a
backup code; on failure append to login history and write one
`security.failed_login` audit event with risk 60; on success clear the temp
token, mint both tokens, create the refresh session and append the success
row to login history (no audit event is written on this path). -/
def loginWith2FA (auditKey : String) (tempToken code : String) (d : DeviceInfo) (nowMs : Nat)
    (newFamily newSessionId jti : String) (st : AuthState) :
    Except String TokenPair × AuthState :=
  match st.users.find? (fun u => u.emailVerificationToken == some tempToken &&
      match u.emailVerificationExpiry with
      | some e => decide (nowMs < e)
      | none => false) with
  | none => (.error "Invalid or expired token", st)
  | some user =>
    if ¬ user.twoFactorEnabled then (.error "Invalid or expired token", st)
    else
      let totpOk :=
        match user.twoFactorSecret with
        | some s => verify2FACode s code (nowMs / 1000)
        | none => false
      let checked := if totpOk then (true, user) else verifyBackupCode user code
      if ¬ checked.1 then
        let userF : User :=
          { user with loginHistory := user.loginHistory ++
              [{ ipAddress := d.ipAddress, userAgent := d.userAgent, success := false
                 reason := "Invalid 2FA code", location := d.location }] }
        let failEvt : WriteReq :=
          { timestamp := nowMs, eventType := "security.failed_login", userId := some user.id
            action := "security_event", resource := "security", result := "failure"
            riskScore := some 60, metaIp := some d.ipAddress, metaUserAgent := some d.userAgent }
        (.error "Invalid 2FA code",
         { st with
             users := updateUser st.users userF
             audit := appendAuditEntry auditKey st.audit failEvt })
      else
        let user1 : User :=
          { checked.2 with emailVerificationToken := none, emailVerificationExpiry := none }
        let fingerprint := Fp.generateFingerprintFromComponents d.userAgent d.ipAddress
        let accessToken := JwtTs.signAccessToken
          { sub := user1.id, email := user1.email, role := user1.role
            tokenVersion := user1.tokenVersion, fingerprint := some fingerprint, ip := none }
          jti (nowMs / 1000)
        let refreshToken := JwtTs.signRefreshToken
          { sub := user1.id, family := newFamily, tokenVersion := user1.tokenVersion }
          (nowMs / 1000)
        let expiresAt := nowMs + 7 * 24 * 60 * 60 * 1000
        match createRefreshToken refreshToken user1.id d newFamily expiresAt newSessionId
            st.sessions with
        | (.error e, sessions1) =>
          (.error e, { st with users := updateUser st.users user1, sessions := sessions1 })
        | (.ok _, sessions1) =>
          let user2 : User :=
            { user1 with loginHistory := user1.loginHistory ++
                [{ ipAddress := d.ipAddress, userAgent := d.userAgent, success := true
                   reason := "2FA login successful", location := d.location }] }
          (.ok { accessToken := accessToken, refreshToken := refreshToken },
           { st with users := updateUser st.users user2, sessions := sessions1 })

/-- `requestPasswordReset` from `src/services/auth.service.ts`: silently
succeed for unknown or non-local accounts; otherwise store a fresh reset
token with a one-hour expiry and email the link (`emailOk` models whether
the email transport succeeds; its failure propagates as a thrown error to
the caller). -/
def requestPasswordReset (email : String) (nowMs : Nat) (resetTok : String) (emailOk : Bool)
    (st : AuthState) : Except String String × AuthState :=
  match st.users.find? (fun u => u.email = email ∧ u.provider = "local") with
  | none => (.ok "If your email is registered, you will receive a password reset link.", st)
  | some user =>
    let user1 : User :=
      { user with passwordResetToken := some resetTok
                  passwordResetExpiry := some (nowMs + 60 * 60 * 1000) }
    let st1 : AuthState := { st with users := updateUser st.users user1 }
    if emailOk then
      (.ok "Password reset link sent to your email",
       { st1 with sentEmails := st1.sentEmails ++ [(user.email, "password-reset")] })
    else (.error "email send failed", st1)

/-- An HTTP response as the controller produces it. -/
structure HttpResponse where
  status : Nat
  body : String
deriving Repr, DecidableEq

/-- Modelled from the spec: the §6 response envelope serialized by
`sendSuccess` in the api-response util (not among the provided sources):
`status: "success"` plus the data object, as compact JSON. -/
def sendSuccess (code : Nat) (data : Json) : HttpResponse :=
  { status := code
    body := String.mk (render (Json.obj [("status", .str "success"), ("data", data)])) }

/-- `forgotPasswordHandler` from `src/controllers/auth.controller.ts`: call
`requestPasswordReset` and reply 200 with the fixed non-disclosing message
on both the success and the error path. -/
def forgotPasswordHandler (email : String) (nowMs : Nat) (resetTok : String) (emailOk : Bool)
    (st : AuthState) : HttpResponse × AuthState :=
  let r := requestPasswordReset email nowMs resetTok emailOk st
  (sendSuccess 200 (.obj [("message", .str "If the email exists, a password reset link has been sent.")]),
   r.2)

end AuthSvc

namespace AuthMw

open Js AuthSvc

/-- Outcome of the `authenticate` middleware: an error response or the
`req.authUser` attachment passed to the next handler. -/
inductive AuthOutcome where
  | respond (status : Nat) (message : String)
  | next (userId email role : String) (tokenVersion : Nat)
deriving Repr, DecidableEq

/-- `getTokenFromHeader` from the auth middleware source: split the
`Authorization` header at spaces and require the `Bearer` scheme with a
truthy token. -/
def getTokenFromHeader (req : Fp.Req) : Option (List Char) :=
  match req.authorization with
  | none => none
  | some h =>
    let parts := Fp.splitOnChar ' ' h
    let scheme := parts.getD 0 ""
    let token := parts.getD 1 ""
    if scheme ≠ "Bearer" ∨ token = "" then none
    else some token.data

/-- Modelled from the spec: `user.isAccountLocked()` of the user model (not
among the provided sources) — locked while `accountLockedUntil` lies in the
future. -/
def isAccountLocked (u : User) (nowMs : Nat) : Bool :=
  match u.accountLockedUntil with
  | some t => nowMs < t
  | none => false

/-- `authenticate` from the auth middleware source: extract the bearer
token, verify it, reload the user, reject on `tokenVersion` mismatch, on a
locked account, and (in production) on an enhanced-fingerprint mismatch
that also fails the legacy grace path. -/
def authenticate (req : Fp.Req) (nowMs : Nat) (env : String) (st : AuthState) : AuthOutcome :=
  match getTokenFromHeader req with
  | none => .respond 401 "Authentication token missing"
  | some token =>
    match JwtTs.verifyAccessToken token none (nowMs / 1000) with
    | .error _ => .respond 401 "Invalid or expired token"
    | .ok payload =>
      match st.users.find? (fun u => some u.id = jgetStr payload "sub") with
      | none => .respond 401 "User not found"
      | some user =>
        if jgetNum payload "tokenVersion" ≠ some user.tokenVersion then
          .respond 401 "Token has been revoked"
        else if isAccountLocked user nowMs then
          .respond 403 "Account is temporarily locked"
        else
          let currentEnhanced := Fp.generateEnhancedFingerprint req
          if ¬ jsFalsy (jget payload "fingerprint") ∧
              jgetStr payload "fingerprint" ≠ some currentEnhanced then
            let comps := Fp.extractFingerprintComponents req
            let legacy := Fp.generateLegacyFingerprint comps.userAgent comps.ipAddress
            if jgetStr payload "fingerprint" = some legacy then
              .next user.id user.email user.role user.tokenVersion
            else if env = "production" then .respond 401 "Session invalid. Please login again."
            else .next user.id user.email user.role user.tokenVersion
          else .next user.id user.email user.role user.tokenVersion

end AuthMw

/-- Success test of an `Except`, used to state run outcomes decidably. -/
def exceptOk {e a : Type} (x : Except e a) : Bool :=
  match x with
  | .ok _ => true
  | .error _ => false

namespace Audit

/-- A default entry for indexed access in chain statements. -/
def emptyEntry : AuditEntry :=
  { timestamp := 0, eventType := "", userId := none, action := "", resource := ""
    resourceId := none, metaIp := none, metaUserAgent := none, result := ""
    errorMessage := none, riskScore := none, signature := "", previousHash := none }

/-- The chain hash contribution of an entry:
`SHA256(signature || timestamp.toISOString())`. -/
def hashOfEntry (e : AuditEntry) : String :=
  String.mk (Crypto.sha256Hex (e.signature.data ++ (isoOfMs e.timestamp).data))

/-- Every consecutive pair of entries is linked by `previousHash`. -/
def chainLinked (log : List AuditEntry) : Prop :=
  ∀ i, i + 1 < log.length →
    (log.getD (i + 1) emptyEntry).previousHash = some (hashOfEntry (log.getD i emptyEntry))

end Audit

namespace Fp

/-- A bare request: IP known only from the socket, no TLS, and every
fingerprinted header missing. -/
def c7Req : Req :=
  { userAgent := none, accept := none, acceptLanguage := none, acceptEncoding := none
    secFetchSite := none, secFetchMode := none, secFetchDest := none
    connection := none, authorization := none, forwardedFor := none
    socketRemoteAddress := some "203.0.113.10", reqIp := none, tls := none }

end Fp

namespace AuthSvc

/-- A baseline user row for concrete scenarios. -/
def baseUser : User :=
  { id := "u1", email := "u1@example.com", passwordHash := bcryptHash "Passw0rd!Secret0"
    role := "user", provider := "local", tokenVersion := 3, isEmailVerified := true
    emailVerificationToken := none, emailVerificationExpiry := none
    passwordResetToken := none, passwordResetExpiry := none
    passwordHistory := [bcryptHash "Passw0rd!Secret0"], lastPasswordChange := none
    twoFactorEnabled := false, twoFactorSecret := none, twoFactorBackupCodes := []
    failedLoginAttempts := 0, accountLockedUntil := none, loginHistory := [] }

/-- A device snapshot for concrete scenarios. -/
def baseDevice : DeviceInfo :=
  { deviceId := some "dev1", deviceName := some "Laptop"
    userAgent := "Mozilla/5.0", ipAddress := "203.0.113.10", location := none }

/-- A user amid the 2FA login flow: enabled, with a stored secret and a
live temp token. -/
def c8User : User :=
  { baseUser with
      twoFactorEnabled := true
      twoFactorSecret := some "s3cretkey"
      emailVerificationToken := some "tmptok1"
      emailVerificationExpiry := some 2000000000000 }

/-- Auth state for the 2FA scenarios. -/
def c8State : AuthState :=
  { users := [c8User], sessions := [], audit := [], sentEmails := [] }

/-- The TOTP code valid for the scenario clock. -/
def c8Code : String := totpCode "s3cretkey" (1000000000000 / 1000 / 30)

/-- The 2FA user with the feature disabled but a live temp token. -/
def c8UserOff : User := { c8User with twoFactorEnabled := false }

/-- Auth state for the disabled-2FA branch. -/
def c8StateOff : AuthState :=
  { users := [c8UserOff], sessions := [], audit := [], sentEmails := [] }

end AuthSvc

namespace Payment

/-- A concrete payment state: one active product and eleven failed payment
events of user `u1` inside the 24-hour window. -/
def c5WitnessState : PayState :=
  { products := [{ id := "p1", name := "Widget", price := 10, currency := "USD", isActive := true }]
    orders := []
    audit := (List.range 11).map (fun i =>
      { timestamp := i + 2, eventType := "payment.failed", userId := some "u1"
        action := "payment_event", resource := "payment", resourceId := none
        metaIp := none, metaUserAgent := none, result := "failure", errorMessage := none
        riskScore := none, signature := "", previousHash := none })
    providerCalls := [] }

end Payment

namespace Jwt

open Js

/-- The header document `jwt.sign` serializes for RS256. -/
def jwtHeaderJson : Json := .obj [("alg", .str "RS256"), ("typ", .str "JWT")]

/-- The payload document `jwt.sign` serializes: the claims plus `iat` and
`exp`. -/
def jwtPayloadJson (claims : List (String × Json)) (expiry now : Nat) : Json :=
  .obj (claims ++ [("iat", .num now), ("exp", .num (now + expiry))])

/-- The encoded header segment of a signed token. -/
def jwtHeaderSeg : List Char := b64OfStr (render jwtHeaderJson)

/-- The encoded payload segment of a signed token. -/
def jwtPayloadSeg (claims : List (String × Json)) (expiry now : Nat) : List Char :=
  b64OfStr (render (jwtPayloadJson claims expiry now))

/-- The encoded signature segment of a signed token. -/
def jwtSigSeg (claims : List (String × Json)) (keyId expiry now : Nat) : List Char :=
  B64.encode (rs256Sign keyId (jwtHeaderSeg ++ '.' :: jwtPayloadSeg claims expiry now))

end Jwt

namespace JwtTs

open Js

/-- The claim list `signAccessToken` passes to `jwt.sign` when both optional
claims are present. -/
def accessClaims (sub email role : String) (tv : Nat) (fp ip jti : String) :
    List (String × Json) :=
  [("sub", .str sub), ("email", .str email), ("role", .str role),
   ("tokenVersion", .num tv), ("fingerprint", .str fp), ("ip", .str ip), ("jti", .str jti)]

/-- The claim list `signRefreshToken` passes to `jwt.sign`. -/
def refreshClaims (sub family : String) (tv : Nat) : List (String × Json) :=
  [("sub", .str sub), ("family", .str family), ("tokenVersion", .num tv),
   ("type", .str "refresh")]

end JwtTs

namespace AuthSvc

/-- A user with a live password-reset token for the invalidation scenario. -/
def c3User : User :=
  { baseUser with
      tokenVersion := 0
      passwordHash := bcryptHash "OldPassw0rd!"
      passwordHistory := []
      passwordResetToken := some "rtok1"
      passwordResetExpiry := some 2000000 }

/-- Auth state for the invalidation scenario. -/
def c3State : AuthState :=
  { users := [c3User], sessions := [], audit := [], sentEmails := [] }

/-- The access token signed for `c3User` before the password change. -/
def c3Token : List Char :=
  JwtTs.signAccessToken
    { sub := "u1", email := "u1@example.com", role := "user", tokenVersion := 0
      fingerprint := some "fp1", ip := some "1.2.3.4" } "jti1" 1000

/-- The refresh token presented in the rotation scenario. -/
def c2Token : List Char :=
  JwtTs.signRefreshToken { sub := "u1", family := "f1", tokenVersion := 3 } 1000

/-- The stored session row keyed by the hash of `c2Token`. -/
def c2Session : RefreshSession :=
  { id := "s1", userId := "u1", hashedToken := JwtTs.hashToken c2Token, family := "f1"
    deviceId := none, deviceName := none, userAgent := "ua", ipAddress := "203.0.113.10"
    revoked := false, revokedReason := none, expiresAt := 1000000000000 }

/-- Auth state for the rotation scenario. -/
def c2State : AuthState :=
  { users := [baseUser], sessions := [c2Session], audit := [], sentEmails := [] }

end AuthSvc

namespace Fp

/-- A request bearing `c3Token` for the invalidation scenario. -/
def c3Req : Req :=
  { c7Req with authorization := some ("Bearer " ++ String.mk AuthSvc.c3Token) }

end Fp

/-!
Theorems.  Each claim of the specification is settled by one named theorem
(with a witness when the theorem carries hypotheses, and a counterexample
when the claim required correction).
-/

section ClaimC4

open RateLimiter

/-- C4: failed-login tracking — a track with no record or an expired window
resets to `count = 1`; otherwise the count increments and reaching five
blocks the key until `now + 30` minutes; while blocked the check reports
`blocked` with strictly positive remaining seconds; a successful login
deletes the record. -/
theorem c4_failed_login_tracker (now checkNow : Nat) (rec : Option FailedLoginRecord) :
    ((rec = none ∨ (∃ r, rec = some r ∧ now - r.firstAttempt > loginAttemptWindow)) →
      trackFailedLogin now rec = ⟨1, now, now, false, none⟩) ∧
    (∀ r, rec = some r → now - r.firstAttempt ≤ loginAttemptWindow →
      (trackFailedLogin now rec).count = r.count + 1 ∧
      (r.count + 1 ≥ 5 →
        (trackFailedLogin now rec).blocked = true ∧
        (trackFailedLogin now rec).blockedUntil = some (now + 30 * 60 * 1000)) ∧
      (r.count + 1 < 5 → (trackFailedLogin now rec).blocked = r.blocked)) ∧
    (∀ r bu, rec = some r → r.blocked = true → r.blockedUntil = some bu → checkNow < bu →
      (isLoginBlocked checkNow rec).1.blocked = true ∧
      ∃ t, (isLoginBlocked checkNow rec).1.remainingTime = some t ∧ 0 < t) ∧
    resetFailedLogin rec = none := by
  refine ⟨?_, ?_, ?_, rfl⟩
  · rintro (rfl | ⟨r, rfl, hr⟩)
    · rfl
    · simp only [trackFailedLogin, if_pos hr]
  · rintro r rfl hr
    simp only [trackFailedLogin, Nat.not_lt.mpr, if_neg (by omega : ¬ now - r.firstAttempt > loginAttemptWindow)]
    refine ⟨?_, ?_, ?_⟩
    · by_cases h5 : r.count + 1 ≥ maxFailedAttempts <;> simp [h5]
    · intro h5
      have : r.count + 1 ≥ maxFailedAttempts := h5
      simp [this, blockDuration]
    · intro h5
      have : ¬ r.count + 1 ≥ maxFailedAttempts := by
        simp only [maxFailedAttempts]; omega
      simp [this]
  · rintro r bu rfl hb hbu hlt
    simp only [isLoginBlocked, hbu, hb, if_pos trivial]
    rw [if_neg (by omega : ¬ checkNow ≥ bu)]
    exact ⟨rfl, (bu - checkNow + 999) / 1000, rfl, by omega⟩

/-- C4 witness: a fourth-failure increment at a concrete record blocks the
key for thirty minutes, the block check reports positive remaining seconds,
and reset deletes. -/
theorem c4_failed_login_tracker_witness :
    trackFailedLogin 1000 (some ⟨4, 0, 900, false, none⟩) =
      ⟨5, 0, 1000, true, some 1801000⟩ ∧
    (isLoginBlocked 2000 (some ⟨5, 0, 1000, true, some 1801000⟩)).1.blocked = true ∧
    resetFailedLogin (some ⟨5, 0, 1000, true, some 1801000⟩) = none := by
  have h := c4_failed_login_tracker 1000 2000 (some ⟨4, 0, 900, false, none⟩)
  have h2 := h.2.1 _ rfl (by decide)
  have h3 := (c4_failed_login_tracker 1000 2000
    (some ⟨5, 0, 1000, true, some 1801000⟩)).2.2.1 _ 1801000 rfl rfl rfl (by decide)
  refine ⟨?_, h3.1, h.2.2.2⟩
  decide

end ClaimC4

section ClaimC5

open Anomaly Payment Audit

/-- Helper: the guarded distinct-IP term of the fraud score collapses to its
distinct-count condition when the caller supplies a truthy IP. -/
theorem ifManyIPsEq (t : Prop) [Decidable t] (ht : t) (r d : Nat) (hdr : d ≤ r) :
    (if t ∧ 0 < r ∧ 5 < d then (30 : Nat) else 0) = if 5 < d then 30 else 0 := by
  by_cases h : 5 < d
  · rw [if_pos ⟨ht, by omega, h⟩, if_pos h]
  · rw [if_neg (fun hc => h hc.2.2), if_neg h]

/-- C5: payment fraud gate — the fraud score over the last 24 hours adds 50
when failed payments exceed 3, 20 when the amount exceeds 5000, 40 when the
payment-event count exceeds 10, and 30 when distinct payment IPs exceed 5;
and whenever that score is at least 80, `createPaymentIntent` rejects with
no order row created and no provider call made. -/
theorem c5_payment_fraud_gate (auditKey userId : String) (items : List PaymentItemInput)
    (ip : String) (ua : Option String) (now : Nat)
    (newOrderId intentId secretStr : String) (st : PayState) (hip : ip ≠ "") :
    (∀ amt, (detectPaymentFraud auditKey st.audit userId amt (some ip) ua now).1.riskScore =
      (if 3 < (failedPaymentsOf st.audit userId now).length then 50 else 0) +
      (if 5000 < amt then 20 else 0) +
      (if 10 < (recentPaymentsOf st.audit userId now).length then 40 else 0) +
      (if 5 < distinctPaymentIPs st.audit userId now then 30 else 0)) ∧
    (80 ≤ (detectPaymentFraud auditKey st.audit userId (totalAmountOf st items)
        (some ip) ua now).1.riskScore →
      (∃ e, (createPaymentIntent auditKey userId items (some ip) ua now
        newOrderId intentId secretStr st).1 = .error e) ∧
      (createPaymentIntent auditKey userId items (some ip) ua now
        newOrderId intentId secretStr st).2.orders = st.orders ∧
      (createPaymentIntent auditKey userId items (some ip) ua now
        newOrderId intentId secretStr st).2.providerCalls = st.providerCalls) := by
  have hchain : distinctPaymentIPs st.audit userId now ≤
      (recentPaymentsOf st.audit userId now).length := by
    calc distinctPaymentIPs st.audit userId now
        ≤ (((recentPaymentsOf st.audit userId now).filterMap
            (fun e => e.metaIp)).filter (fun s => s ≠ "")).length :=
          (List.dedup_sublist _).length_le
      _ ≤ ((recentPaymentsOf st.audit userId now).filterMap (fun e => e.metaIp)).length :=
          List.length_filter_le _ _
      _ ≤ (recentPaymentsOf st.audit userId now).length := List.length_filterMap_le _ _
  have hscore : ∀ amt,
      (detectPaymentFraud auditKey st.audit userId amt (some ip) ua now).1.riskScore =
      (if 3 < (failedPaymentsOf st.audit userId now).length then 50 else 0) +
      (if 5000 < amt then 20 else 0) +
      (if 10 < (recentPaymentsOf st.audit userId now).length then 40 else 0) +
      (if 5 < distinctPaymentIPs st.audit userId now then 30 else 0) := by
    intro amt
    simp only [detectPaymentFraud, failedPaymentsOf, recentPaymentsOf,
      distinctPaymentIPs] at hchain ⊢
    congr 1
    exact ifManyIPsEq _ (by simpa [Anomaly.strTruthy] using hip) _ _ hchain
  refine ⟨hscore, ?_⟩
  intro hge
  simp only [createPaymentIntent]
  split
  · exact ⟨⟨_, rfl⟩, rfl, rfl⟩
  · rename_i hlen
    split
    · exact ⟨⟨_, rfl⟩, rfl, rfl⟩
    · rename_i its hbuild
      split
      · exact ⟨⟨_, rfl⟩, rfl, rfl⟩
      · rename_i hpos
        rw [if_pos ?ge]
        case ge =>
          have htot : totalAmountOf st items =
              its.foldl (fun sum it => sum + it.price * it.quantity) 0 := by
            simp only [totalAmountOf, loadedProducts]
            rw [hbuild]
          rw [htot] at hge
          omega
        exact ⟨⟨_, rfl⟩, rfl, rfl⟩

/-- C5 witness: a user with four recent failed payments and an amount above
5000 scores 70; with eleven recent events the score reaches at least 80 and
a concrete intent request is rejected with no order and no provider call. -/
theorem c5_payment_fraud_gate_witness :
    ∃ e, (createPaymentIntent "k" "u1"
      [{ productId := "p1", quantity := 1 }] (some "9.9.9.9") none 86400001
      "o1" "pi1" "cs1" c5WitnessState).1 = .error e ∧
    (createPaymentIntent "k" "u1"
      [{ productId := "p1", quantity := 1 }] (some "9.9.9.9") none 86400001
      "o1" "pi1" "cs1" c5WitnessState).2.orders = c5WitnessState.orders := by
  have h := c5_payment_fraud_gate "k" "u1" [{ productId := "p1", quantity := 1 }]
    "9.9.9.9" none 86400001 "o1" "pi1" "cs1" c5WitnessState (by decide)
  have hg := h.2 (by decide)
  obtain ⟨e, he⟩ := hg.1
  exact ⟨e, he, hg.2.1⟩

end ClaimC5

section ClaimC7

/-- C7 counterexample: on a request whose fingerprinted headers are all
missing, the implemented fingerprint hashes the empty string for the
missing `userAgent`, `acceptLanguage` and `acceptEncoding` (and `no-tls`
for a plain socket), not the literal `none` the claim states for every
missing component, so the two digests differ. -/
theorem c7_enhanced_fingerprint_counterexample :
    Fp.generateEnhancedFingerprint Fp.c7Req ≠ Fp.specEnhancedFingerprint Fp.c7Req := by
  decide

/-- C7 amended: the enhanced fingerprint is the SHA-256 hex digest of the
ordered concatenation
`ip | tlsInfo | userAgent | acceptLanguage | acceptEncoding | secFetchSite |
secFetchMode | secFetchDest`, where only the three missing `sec-fetch`
values are encoded as `"none"`; a missing `userAgent`, `acceptLanguage` or
`acceptEncoding` is encoded as the empty string, the IP falls back to the
socket address and then the literal `unknown`, and the TLS slot reads
`no-tls` on a plain socket. -/
theorem c7_enhanced_fingerprint_amended (req : Fp.Req) :
    Fp.generateEnhancedFingerprint req =
      String.mk (Crypto.sha256Hex (Fp.joinBar
        [(Fp.forwardedIp req).getD (req.socketRemoteAddress.getD "unknown"),
         Fp.extractTLSInfo req,
         req.userAgent.getD "", req.acceptLanguage.getD "", req.acceptEncoding.getD "",
         req.secFetchSite.getD "none", req.secFetchMode.getD "none",
         req.secFetchDest.getD "none"])) := rfl

end ClaimC7

section ClaimC9

open AuthSvc

/-- C9: enumeration safety of forgot-password — for any pair of requests,
one naming an email held by an existing local account and one naming an
email held by no account, the two responses carry the same HTTP status and
byte-identical bodies. -/
theorem c9_forgot_password_enumeration_safe
    (emailE emailN : String) (nowE nowN : Nat) (tokE tokN : String)
    (emailOkE emailOkN : Bool) (stE stN : AuthState)
    (hex : ∃ u ∈ stE.users, u.email = emailE ∧ u.provider = "local")
    (hnon : ∀ u ∈ stN.users, u.email ≠ emailN) :
    (forgotPasswordHandler emailE nowE tokE emailOkE stE).1.status =
      (forgotPasswordHandler emailN nowN tokN emailOkN stN).1.status ∧
    (forgotPasswordHandler emailE nowE tokE emailOkE stE).1.body =
      (forgotPasswordHandler emailN nowN tokN emailOkN stN).1.body :=
  ⟨rfl, rfl⟩

/-- C9 witness: a concrete pair — `u1@example.com` exists as a local
account, `ghost@example.com` belongs to nobody — receives identical
responses. -/
theorem c9_forgot_password_enumeration_safe_witness :
    (forgotPasswordHandler "u1@example.com" 1000 "tok1" true
        { users := [baseUser], sessions := [], audit := [], sentEmails := [] }).1.status =
      (forgotPasswordHandler "ghost@example.com" 2000 "tok2" false
        { users := [baseUser], sessions := [], audit := [], sentEmails := [] }).1.status ∧
    (forgotPasswordHandler "u1@example.com" 1000 "tok1" true
        { users := [baseUser], sessions := [], audit := [], sentEmails := [] }).1.body =
      (forgotPasswordHandler "ghost@example.com" 2000 "tok2" false
        { users := [baseUser], sessions := [], audit := [], sentEmails := [] }).1.body :=
  c9_forgot_password_enumeration_safe "u1@example.com" "ghost@example.com" 1000 2000
    "tok1" "tok2" true false
    { users := [baseUser], sessions := [], audit := [], sentEmails := [] }
    { users := [baseUser], sessions := [], audit := [], sentEmails := [] }
    ⟨baseUser, by decide, by decide⟩ (by decide)

end ClaimC9

section ClaimC8

open AuthSvc Audit

/-- C8 counterexample: a concrete `loginWith2FA` call with a live temp token
and the currently valid TOTP code succeeds, yet writes zero audit events —
not the exactly-one success audit event the claim states. -/
theorem c8_2fa_audit_counterexample :
    exceptOk (loginWith2FA "k" "tmptok1" c8Code baseDevice 1000000000000
      "fam1" "sess1" "jti1" c8State).1 = true ∧
    (loginWith2FA "k" "tmptok1" c8Code baseDevice 1000000000000
      "fam1" "sess1" "jti1" c8State).2.audit = [] := by
  constructor
  · decide
  · decide

/-- C8 amended: `loginWith2FA` writes no audit event when the tempToken is
invalid or expired (no matching user, or the matched user has 2FA disabled
— both throw "Invalid or expired token" with the state unchanged), writes
no audit event on its success path (the successful login is recorded only
in the user's login history), and on a failure caused by an invalid code
for a user with a live temp token and 2FA enabled it writes exactly one
audit event, a `security.failed_login` with risk score 60. -/
theorem c8_2fa_audit_amended (auditKey tempToken code : String) (d : DeviceInfo)
    (nowMs : Nat) (newFamily newSessionId jti : String) (st : AuthState) :
    (st.users.find? (fun u => u.emailVerificationToken == some tempToken &&
        match u.emailVerificationExpiry with
        | some e => decide (nowMs < e)
        | none => false) = none →
      (loginWith2FA auditKey tempToken code d nowMs newFamily newSessionId jti st).1 =
        .error "Invalid or expired token" ∧
      (loginWith2FA auditKey tempToken code d nowMs newFamily newSessionId
        jti st).2.audit = st.audit) ∧
    (∀ user,
      st.users.find? (fun u => u.emailVerificationToken == some tempToken &&
        match u.emailVerificationExpiry with
        | some e => decide (nowMs < e)
        | none => false) = some user →
      user.twoFactorEnabled = false →
      (loginWith2FA auditKey tempToken code d nowMs newFamily newSessionId jti st).1 =
        .error "Invalid or expired token" ∧
      (loginWith2FA auditKey tempToken code d nowMs newFamily newSessionId
        jti st).2.audit = st.audit) ∧
    (exceptOk (loginWith2FA auditKey tempToken code d nowMs newFamily newSessionId
        jti st).1 = true →
      (loginWith2FA auditKey tempToken code d nowMs newFamily newSessionId
        jti st).2.audit = st.audit) ∧
    (∀ user,
      st.users.find? (fun u => u.emailVerificationToken == some tempToken &&
        match u.emailVerificationExpiry with
        | some e => decide (nowMs < e)
        | none => false) = some user →
      user.twoFactorEnabled = true →
      (match user.twoFactorSecret with
        | some s => verify2FACode s code (nowMs / 1000)
        | none => false) = false →
      (verifyBackupCode user code).1 = false →
      exceptOk (loginWith2FA auditKey tempToken code d nowMs newFamily newSessionId
        jti st).1 = false ∧
      (loginWith2FA auditKey tempToken code d nowMs newFamily newSessionId
          jti st).2.audit.length = st.audit.length + 1 ∧
      (∃ evt, (loginWith2FA auditKey tempToken code d nowMs newFamily newSessionId
          jti st).2.audit.getLast? = some evt ∧
        evt.eventType = "security.failed_login" ∧ evt.riskScore = some 60)) := by
  refine ⟨?_, ?_, ?_, ?_⟩
  · intro hnone
    constructor
    · simp [loginWith2FA, hnone]
    · simp [loginWith2FA, hnone]
  · intro user hfind hen
    constructor
    · simp [loginWith2FA, hfind, hen]
    · simp [loginWith2FA, hfind, hen]
  · intro hok
    simp only [loginWith2FA] at hok ⊢
    repeat' split
    all_goals first
      | rfl
      | simp_all [exceptOk]
  · intro user hfind hen htotp hback
    simp [loginWith2FA, hfind, hen, htotp, hback, exceptOk, Audit.appendAuditEntry,
      List.getLast?_concat]

/-- C8 amended witness: a wrong temp token and a disabled-2FA user each
throw with the audit log unchanged; at the concrete 2FA state, the valid
code leaves the audit log unchanged, and an invalid code writes exactly
one `security.failed_login` event with risk 60. -/
theorem c8_2fa_audit_amended_witness :
    (loginWith2FA "k" "nosuch" "000000" baseDevice 1000000000000
      "fam1" "sess1" "jti1" c8State).2.audit = c8State.audit ∧
    (loginWith2FA "k" "tmptok1" "000000" baseDevice 1000000000000
      "fam1" "sess1" "jti1" c8StateOff).2.audit = c8StateOff.audit ∧
    (loginWith2FA "k" "tmptok1" c8Code baseDevice 1000000000000
      "fam1" "sess1" "jti1" c8State).2.audit = c8State.audit ∧
    (loginWith2FA "k" "tmptok1" "000000" baseDevice 1000000000000
      "fam1" "sess1" "jti1" c8State).2.audit.length = c8State.audit.length + 1 := by
  refine ⟨?_, ?_, ?_, ?_⟩
  · exact ((c8_2fa_audit_amended "k" "nosuch" "000000" baseDevice 1000000000000
      "fam1" "sess1" "jti1" c8State).1 (by decide)).2
  · exact ((c8_2fa_audit_amended "k" "tmptok1" "000000" baseDevice 1000000000000
      "fam1" "sess1" "jti1" c8StateOff).2.1 c8UserOff (by decide) (by decide)).2
  · exact (c8_2fa_audit_amended "k" "tmptok1" c8Code baseDevice 1000000000000
      "fam1" "sess1" "jti1" c8State).2.2.1 (by decide)
  · exact ((c8_2fa_audit_amended "k" "tmptok1" "000000" baseDevice 1000000000000
      "fam1" "sess1" "jti1" c8State).2.2.2 c8User (by decide) (by decide) (by decide)
      (by decide)).2.1

end ClaimC8

section ClaimC6

open Audit

/-- Helper: indexing past an appended element reads the original list. -/
theorem getD_append_lt {α : Type} (l : List α) (e d : α) (i : Nat) (h : i < l.length) :
    (l ++ [e]).getD i d = l.getD i d := by
  induction l generalizing i with
  | nil => simp at h
  | cons x xs ih =>
    cases i with
    | zero => rfl
    | succ j => simpa using ih j (by simpa using h)

/-- Helper: indexing at the old length reads the appended element. -/
theorem getD_append_length {α : Type} (l : List α) (e d : α) :
    (l ++ [e]).getD l.length d = e := by
  induction l with
  | nil => rfl
  | cons x xs ih => simpa using ih

/-- Helper: the last element read by index. -/
theorem getLast?_eq_getD {α : Type} (l : List α) (d a : α) (h : l.getLast? = some a) :
    l.getD (l.length - 1) d = a := by
  induction l with
  | nil => simp at h
  | cons x xs ih =>
    cases hxs : xs with
    | nil => subst hxs; simp at h; simpa using h
    | cons y ys =>
      subst hxs
      rw [List.getLast?_cons_cons] at h
      have := ih h
      simpa using this

/-- Helper: the foldl underlying `latest` only produces the seed or a member. -/
theorem latest_foldl_mem (log : List AuditEntry) :
    ∀ (acc : Option AuditEntry) (a : AuditEntry),
      log.foldl
        (fun acc e =>
          match acc with
          | none => some e
          | some x => if x.timestamp ≤ e.timestamp then some e else some x) acc = some a →
      acc = some a ∨ a ∈ log := by
  induction log with
  | nil => intro acc a h; exact .inl h
  | cons e rest ih =>
    intro acc a h
    rcases ih _ _ h with hstep | hmem
    · cases acc with
      | none =>
        dsimp only at hstep
        exact .inr (by simp_all)
      | some x =>
        dsimp only at hstep
        by_cases hle : x.timestamp ≤ e.timestamp
        · rw [if_pos hle] at hstep
          exact .inr (by simp_all)
        · rw [if_neg hle] at hstep
          exact .inl hstep
    · exact .inr (List.mem_cons_of_mem _ hmem)

/-- Helper: `latest` yields a member of the log. -/
theorem latest_mem (log : List AuditEntry) (a : AuditEntry) (h : latest log = some a) :
    a ∈ log := by
  rcases latest_foldl_mem log none a h with h0 | hm
  · simp at h0
  · exact hm

/-- Helper: appending an entry at least as late as every stored one makes it
the row `findOne().sort({timestamp:-1})` returns. -/
theorem latest_append_le (log : List AuditEntry) (e : AuditEntry)
    (h : ∀ x ∈ log, x.timestamp ≤ e.timestamp) : latest (log ++ [e]) = some e := by
  unfold latest
  rw [List.foldl_append]
  cases hl : log.foldl
      (fun acc e =>
        match acc with
        | none => some e
        | some x => if x.timestamp ≤ e.timestamp then some e else some x) none with
  | none => rfl
  | some a =>
    have ha : a ∈ log := latest_mem log a hl
    simp only [List.foldl_cons, List.foldl_nil]
    rw [if_pos (h a ha)]

/-- Helper: the inductive invariant of the audit writer — appending
writes with strictly increasing timestamps preserves the hash chain, the
latest-row characterization and the already-written prefix. -/
theorem writeAll_chain_aux (key : String) (ws : List WriteReq) :
    ∀ (log : List AuditEntry),
      (∀ x ∈ log, ∀ w ∈ ws, x.timestamp < w.timestamp) →
      List.Pairwise (fun a b => a.timestamp < b.timestamp) ws →
      chainLinked log →
      latest log = log.getLast? →
      chainLinked (writeAll key log ws) ∧
      (writeAll key log ws).length = log.length + ws.length ∧
      latest (writeAll key log ws) = (writeAll key log ws).getLast? ∧
      (∀ i, i < log.length →
        (writeAll key log ws).getD i emptyEntry = log.getD i emptyEntry) ∧
      (log = [] → ws ≠ [] →
        ((writeAll key log ws).getD 0 emptyEntry).previousHash = none) := by
  induction ws with
  | nil =>
    intro log hlt hpw hchain hlat
    exact ⟨hchain, by simp [writeAll], hlat, fun i _ => rfl, fun _ hne => absurd rfl hne⟩
  | cons w ws ih =>
    intro log hlt hpw hchain hlat
    have hstep : writeAll key log (w :: ws) = writeAll key (appendAuditEntry key log w) ws := rfl
    obtain ⟨hw, hpw'⟩ := List.pairwise_cons.mp hpw
    set entry : AuditEntry :=
      { timestamp := w.timestamp, eventType := w.eventType, userId := w.userId
        action := w.action, resource := w.resource, resourceId := none
        metaIp := w.metaIp, metaUserAgent := w.metaUserAgent
        result := w.result, errorMessage := none, riskScore := w.riskScore
        signature := createAuditSignature w.timestamp w.eventType w.userId w.action
          w.resource w.result key
        previousHash := getPreviousLogHash log } with hentry
    have happ : appendAuditEntry key log w = log ++ [entry] := rfl
    have hentryts : entry.timestamp = w.timestamp := rfl
    have hlt' : ∀ x ∈ log ++ [entry], ∀ w' ∈ ws, x.timestamp < w'.timestamp := by
      intro x hx w' hw'
      rcases List.mem_append.mp hx with hxl | hxe
      · exact hlt x hxl w' (List.mem_cons_of_mem _ hw')
      · have : x = entry := by simpa using hxe
        rw [this, hentryts]
        exact hw w' hw'
    have hle : ∀ x ∈ log, x.timestamp ≤ entry.timestamp := by
      intro x hx
      exact Nat.le_of_lt (hlt x hx w (List.mem_cons_self _ _))
    have hlat' : latest (log ++ [entry]) = (log ++ [entry]).getLast? := by
      rw [latest_append_le log entry hle, List.getLast?_concat]
    have hchain' : chainLinked (log ++ [entry]) := by
      intro i hi
      simp only [List.length_append, List.length_cons, List.length_nil] at hi
      by_cases hlti : i + 1 < log.length
      · rw [getD_append_lt log entry emptyEntry (i + 1) hlti,
          getD_append_lt log entry emptyEntry i (by omega)]
        exact hchain i hlti
      · have hieq : i + 1 = log.length := by omega
        have h0 : 0 < log.length := by omega
        rw [show i + 1 = log.length from hieq, getD_append_length,
          getD_append_lt log entry emptyEntry i (by omega)]
        have hne : log ≠ [] := by
          intro hemp
          rw [hemp] at h0
          simp at h0
        obtain ⟨a, ha⟩ := Option.ne_none_iff_exists'.mp
          (show log.getLast? ≠ none by
            intro hnone
            rw [List.getLast?_eq_none_iff] at hnone
            exact hne hnone)
        have hgd : log.getD (log.length - 1) emptyEntry = a := getLast?_eq_getD log _ a ha
        have hprev : entry.previousHash = some (hashOfEntry a) := by
          show getPreviousLogHash log = some (hashOfEntry a)
          unfold getPreviousLogHash
          rw [hlat, ha]
          rfl
        rw [show i = log.length - 1 by omega, hgd]
        exact hprev
    have ihres := ih (log ++ [entry]) hlt' hpw' hchain' hlat'
    refine ⟨?_, ?_, ?_, ?_, ?_⟩
    · rw [hstep, happ]; exact ihres.1
    · rw [hstep, happ, ihres.2.1]; simp; omega
    · rw [hstep, happ]; exact ihres.2.2.1
    · intro i hi
      rw [hstep, happ, ihres.2.2.2.1 i (by simp; omega),
        getD_append_lt log entry emptyEntry i hi]
    · intro hemp _
      rw [hstep, happ, ihres.2.2.2.1 0 (by simp)]
      subst hemp
      show entry.previousHash = none
      rw [show entry.previousHash = getPreviousLogHash [] from rfl]
      rfl

/-- C6: audit chain — for a writer process appending entries with strictly
increasing timestamps, every consecutive pair `(a, b)` satisfies
`b.previousHash = SHA256(a.signature || a.timestamp.ISO8601)`, and the first
entry (no prior entry) carries no `previousHash`. -/
theorem c6_audit_chain (key : String) (ws : List WriteReq)
    (hmono : List.Pairwise (fun a b => a.timestamp < b.timestamp) ws) :
    chainLinked (writeAll key [] ws) ∧
    (writeAll key [] ws).length = ws.length ∧
    (ws ≠ [] → ((writeAll key [] ws).getD 0 emptyEntry).previousHash = none) := by
  have h := writeAll_chain_aux key ws [] (by simp) hmono
    (fun i hi => by simp at hi) rfl
  exact ⟨h.1, by simpa using h.2.1, fun hne => h.2.2.2.2 rfl hne⟩

/-- C6 witness: a concrete two-write trace is chain-linked, has two entries,
and its first entry omits `previousHash`. -/
theorem c6_audit_chain_witness :
    chainLinked (writeAll "auditkey"
      [] [{ timestamp := 1700000000000, eventType := "auth.login", userId := some "u1"
            action := "login", resource := "auth", result := "success"
            riskScore := none, metaIp := some "1.2.3.4", metaUserAgent := none },
          { timestamp := 1700000001000, eventType := "auth.logout", userId := some "u1"
            action := "logout", resource := "auth", result := "success"
            riskScore := none, metaIp := some "1.2.3.4", metaUserAgent := none }]) ∧
    (writeAll "auditkey"
      [] [{ timestamp := 1700000000000, eventType := "auth.login", userId := some "u1"
            action := "login", resource := "auth", result := "success"
            riskScore := none, metaIp := some "1.2.3.4", metaUserAgent := none },
          { timestamp := 1700000001000, eventType := "auth.logout", userId := some "u1"
            action := "logout", resource := "auth", result := "success"
            riskScore := none, metaIp := some "1.2.3.4", metaUserAgent := none }]).length = 2 := by
  have h := c6_audit_chain "auditkey"
    [{ timestamp := 1700000000000, eventType := "auth.login", userId := some "u1"
       action := "login", resource := "auth", result := "success"
       riskScore := none, metaIp := some "1.2.3.4", metaUserAgent := none },
     { timestamp := 1700000001000, eventType := "auth.logout", userId := some "u1"
       action := "logout", resource := "auth", result := "success"
       riskScore := none, metaIp := some "1.2.3.4", metaUserAgent := none }]
    (by decide)
  exact ⟨h.1, h.2.1⟩

end ClaimC6

section ClaimC1

open Js JwtTs StrUtil

/-- Helper: the algorithm gate rejects a missing `alg` and each of the
downgrade algorithms, whatever else the header carries. -/
theorem algGate_rejects (header : Json)
    (halg : jget header "alg" = none ∨
      ∃ a, (a = "none" ∨ a = "HS256" ∨ a = "HS384" ∨ a = "HS512" ∨ a = "RS384" ∨
        a = "ES256") ∧ jget header "alg" = some (.str a)) :
    ∃ e, algGate header = .error e := by
  rcases halg with hnone | ⟨a, ha, hsome⟩
  · refine ⟨"Algorithm none is not allowed", ?_⟩
    simp [algGate, hnone, jsFalsy]
  · rcases ha with rfl | rfl | rfl | rfl | rfl | rfl <;>
      simp [algGate, hsome, jsFalsy, lowerAscii, lowerChar] <;> rfl

/-- C1: for every token whose decoded JWT header has `alg` missing or equal
to `none`, `HS256`, `HS384`, `HS512`, `RS384` or `ES256`,
`verifyAccessToken` fails, regardless of the token's payload and
signature segments. -/
theorem c1_verify_access_rejects_bad_alg (t : List Char) (now : Nat)
    (h p s : List Char) (header : Json)
    (hsplit : splitDots t = [h, p, s])
    (hheader : jsonParse (Crypto.utf8Decode (B64.decode h)) = some header)
    (halg : jget header "alg" = none ∨
      ∃ a, (a = "none" ∨ a = "HS256" ∨ a = "HS384" ∨ a = "HS512" ∨ a = "RS384" ∨
        a = "ES256") ∧ jget header "alg" = some (.str a)) :
    ∃ e, verifyAccessToken t none now = .error e := by
  obtain ⟨e, he⟩ := algGate_rejects header halg
  refine ⟨e, ?_⟩
  simp only [verifyAccessToken, hsplit]
  rw [if_neg (by simp)]
  have hgd : ([h, p, s].get? 0).getD ([] : List Char) = h := rfl
  simp only [List.getD, hgd, hheader, he]

/-- C1 witness: a crafted token with header `{"alg":"none"}` and arbitrary
payload and signature segments is rejected. -/
theorem c1_verify_access_rejects_bad_alg_witness :
    ∃ e, verifyAccessToken
      (Jwt.b64OfStr "\x7b\"alg\":\"none\"\x7d".data ++ '.' :: 'x' :: '.' :: ['y'])
      none 0 = .error e :=
  c1_verify_access_rejects_bad_alg _ 0
    (Jwt.b64OfStr "\x7b\"alg\":\"none\"\x7d".data) ['x'] ['y']
    (.obj [("alg", .str "none")])
    (by decide)
    (by rfl)
    (.inr ⟨"none", .inl rfl, rfl⟩)

end ClaimC1

section RoundTrip

open StrUtil Crypto

/-- Helper: splitting a dot-free string yields one segment. -/
theorem splitDots_no_dot (cs : List Char) (h : '.' ∉ cs) : splitDots cs = [cs] := by
  induction cs with
  | nil => rfl
  | cons c rest ih =>
    have hc : ¬ c = '.' := fun hh => h (hh ▸ List.mem_cons_self _ _)
    have hrest : '.' ∉ rest := fun hh => h (List.mem_cons_of_mem _ hh)
    simp only [splitDots, if_neg hc, ih hrest]

/-- Helper: splitting peels a dot-free head segment at its dot. -/
theorem splitDots_append_dot (a rest : List Char) (h : '.' ∉ a) :
    splitDots (a ++ '.' :: rest) = a :: splitDots rest := by
  induction a with
  | nil => simp [splitDots]
  | cons c as ih =>
    have hc : ¬ c = '.' := fun hh => h (hh ▸ List.mem_cons_self _ _)
    have has : '.' ∉ as := fun hh => h (List.mem_cons_of_mem _ hh)
    simp only [List.cons_append, splitDots, if_neg hc, List.append_eq, ih has]

/-- Helper: `getD` reads a member or the default. -/
theorem getD_mem_or_default {α : Type} (l : List α) (n : Nat) (d : α) :
    l.getD n d ∈ l ∨ l.getD n d = d := by
  induction l generalizing n with
  | nil => exact .inr rfl
  | cons x xs ih =>
    cases n with
    | zero => exact .inl (List.mem_cons_self _ _)
    | succ m =>
      rcases ih m with hm | hd
      · exact .inl (List.mem_cons_of_mem _ hm)
      · exact .inr hd

/-- Helper: base64url characters are never dots. -/
theorem b64Char_ne_dot (v : Nat) : B64.b64Char v ≠ '.' := by
  rcases getD_mem_or_default B64.alphabet (v % 64) 'A' with hm | hd
  · intro hdot
    rw [show B64.b64Char v = B64.alphabet.getD (v % 64) 'A' from rfl] at hdot
    rw [hdot] at hm
    exact absurd hm (by decide)
  · rw [show B64.b64Char v = B64.alphabet.getD (v % 64) 'A' from rfl, hd]
    decide

/-- Helper: base64url output contains no dot. -/
theorem encode_no_dot (bs : List Nat) : '.' ∉ B64.encode bs := by
  induction bs using B64.encode.induct with
  | case1 a b c rest ih =>
    simp only [B64.encode, List.mem_cons]
    rintro (h | h | h | h | h)
    · exact b64Char_ne_dot _ h.symm
    · exact b64Char_ne_dot _ h.symm
    · exact b64Char_ne_dot _ h.symm
    · exact b64Char_ne_dot _ h.symm
    · exact ih h
  | case2 a b =>
    simp only [B64.encode, List.mem_cons]
    rintro (h | h | h | h)
    · exact b64Char_ne_dot _ h.symm
    · exact b64Char_ne_dot _ h.symm
    · exact b64Char_ne_dot _ h.symm
    · exact absurd h (by simp)
  | case3 a =>
    simp only [B64.encode, List.mem_cons]
    rintro (h | h | h)
    · exact b64Char_ne_dot _ h.symm
    · exact b64Char_ne_dot _ h.symm
    · exact absurd h (by simp)
  | case4 => simp [B64.encode]

/-- Helper: decoding inverts the encoding table on six-bit values. -/
theorem b64Val_b64Char (v : Nat) (h : v < 64) : B64.b64Val (B64.b64Char v) = some v := by
  interval_cases v <;> rfl

/-- Helper: base64url decoding inverts encoding on byte lists. -/
theorem b64_decode_encode (bs : List Nat) (h : ∀ b ∈ bs, b < 256) :
    B64.decode (B64.encode bs) = bs := by
  induction bs using B64.encode.induct with
  | case1 a b c rest ih =>
    have ha : a < 256 := h a (by simp)
    have hb : b < 256 := h b (by simp)
    have hc : c < 256 := h c (by simp)
    have h1 := b64Val_b64Char (a / 4) (by omega)
    have h2 := b64Val_b64Char (a % 4 * 16 + b / 16) (by omega)
    have h3 := b64Val_b64Char (b % 16 * 4 + c / 64) (by omega)
    have h4 := b64Val_b64Char (c % 64) (by omega)
    have ihr : B64.decodeVals (List.filterMap B64.b64Val (B64.encode rest)) = rest := by
      have := ih (fun x hx => h x (by simp [hx]))
      simpa [B64.decode] using this
    simp only [B64.encode, B64.decode, List.filterMap_cons, h1, h2, h3, h4, B64.decodeVals,
      ihr, List.cons.injEq]
    exact ⟨by omega, by omega, by omega, trivial⟩
  | case2 a b =>
    have ha : a < 256 := h a (by simp)
    have hb : b < 256 := h b (by simp)
    have h1 := b64Val_b64Char (a / 4) (by omega)
    have h2 := b64Val_b64Char (a % 4 * 16 + b / 16) (by omega)
    have h3 := b64Val_b64Char (b % 16 * 4) (by omega)
    simp only [B64.encode, B64.decode, List.filterMap_cons, h1, h2, h3, List.filterMap_nil,
      B64.decodeVals, List.cons.injEq]
    exact ⟨by omega, by omega, trivial⟩
  | case3 a =>
    have ha : a < 256 := h a (by simp)
    have h1 := b64Val_b64Char (a / 4) (by omega)
    have h2 := b64Val_b64Char (a % 4 * 16) (by omega)
    simp only [B64.encode, B64.decode, List.filterMap_cons, h1, h2, List.filterMap_nil,
      B64.decodeVals, List.cons.injEq]
    exact ⟨by omega, trivial⟩
  | case4 => rfl

/-- Helper: Unicode scalar values are below 0x110000. -/
theorem char_toNat_lt (c : Char) : c.toNat < 1114112 := by
  rcases c.valid with h1 | h2
  · exact Nat.lt_trans h1 (by norm_num)
  · exact h2.2

/-- Helper: UTF-8 bytes are bytes. -/
theorem utf8Encode_lt256 (cs : List Char) : ∀ b ∈ utf8Encode cs, b < 256 := by
  intro b hb
  rw [utf8Encode, List.mem_flatMap] at hb
  obtain ⟨c, _, hbc⟩ := hb
  have hc := char_toNat_lt c
  revert hbc
  simp only [utf8EncodeChar]
  split
  · intro hbc; simp at hbc; omega
  · split
    · intro hbc
      simp only [List.mem_cons, List.not_mem_nil, or_false] at hbc
      rcases hbc with rfl | rfl <;> omega
    · split
      · intro hbc
        simp only [List.mem_cons, List.not_mem_nil, or_false] at hbc
        rcases hbc with rfl | rfl | rfl <;> omega
      · intro hbc
        simp only [List.mem_cons, List.not_mem_nil, or_false] at hbc
        rcases hbc with rfl | rfl | rfl | rfl <;> omega

/-- Helper: ASCII strings encode to their code points. -/
theorem utf8Encode_ascii (cs : List Char) (h : ∀ c ∈ cs, c.toNat < 128) :
    utf8Encode cs = cs.map Char.toNat := by
  induction cs with
  | nil => rfl
  | cons c rest ih =>
    have hc : c.toNat < 128 := h c (List.mem_cons_self _ _)
    have hr := ih (fun x hx => h x (List.mem_cons_of_mem _ hx))
    simp only [utf8Encode, List.flatMap_cons] at hr ⊢
    rw [show utf8EncodeChar c = [c.toNat] by simp [utf8EncodeChar, hc], hr]
    rfl

/-- Helper: the UTF-8 decoding loop inverts ASCII encoding given fuel. -/
theorem utf8DecodeGo_ascii (cs : List Char) :
    ∀ fuel, (∀ c ∈ cs, c.toNat < 128) → cs.length ≤ fuel →
      utf8DecodeGo fuel (cs.map Char.toNat) = cs := by
  induction cs with
  | nil => intro fuel _ _; cases fuel <;> rfl
  | cons c rest ih =>
    intro fuel h hfuel
    cases fuel with
    | zero => simp at hfuel
    | succ f =>
      have hc : c.toNat < 128 := h c (List.mem_cons_self _ _)
      simp only [List.map_cons, utf8DecodeGo, if_pos (show c.toNat < 128 from hc),
        Char.ofNat_toNat]
      rw [ih f (fun x hx => h x (List.mem_cons_of_mem _ hx)) (by simpa using hfuel)]

/-- Helper: UTF-8 decoding inverts encoding on ASCII strings. -/
theorem utf8_roundtrip_ascii (cs : List Char) (h : ∀ c ∈ cs, c.toNat < 128) :
    utf8Decode (utf8Encode cs) = cs := by
  rw [utf8Decode, utf8Encode_ascii cs h]
  exact utf8DecodeGo_ascii cs _ h (by simp)

end RoundTrip

section JsonRoundTrip

open Js StrUtil

/-- Helper: safe characters escape to themselves. -/
theorem escapeChar_safe (c : Char) (h : jsonSafeChar c = true) : escapeChar c = [c] := by
  simp only [jsonSafeChar, Bool.and_eq_true, decide_eq_true_eq] at h
  obtain ⟨⟨⟨h1, h2⟩, h3⟩, h4⟩ := h
  simp only [escapeChar]
  rw [if_neg h3, if_neg h4,
    if_neg (fun heq => by rw [heq] at h1; exact absurd h1 (by decide)),
    if_neg (fun heq => by rw [heq] at h1; exact absurd h1 (by decide)),
    if_neg (fun heq => by rw [heq] at h1; exact absurd h1 (by decide)),
    if_neg (fun heq => by rw [heq] at h1; exact absurd h1 (by decide)),
    if_neg (fun heq => by rw [heq] at h1; exact absurd h1 (by decide)),
    if_neg (by omega)]

/-- Helper: escaping a safe character list is the identity. -/
theorem flatMap_escape_safe (cs : List Char) (h : cs.all jsonSafeChar = true) :
    cs.flatMap escapeChar = cs := by
  induction cs with
  | nil => rfl
  | cons c rest ih =>
    simp only [List.all_cons, Bool.and_eq_true] at h
    simp only [List.flatMap_cons, escapeChar_safe c h.1, ih h.2, List.singleton_append]

/-- Helper: a safe string renders as its quoted verbatim text. -/
theorem renderStr_safe (s : String) (h : jsonSafe s = true) :
    renderStr s = '"' :: s.data ++ ['"'] := by
  simp only [renderStr, flatMap_escape_safe s.data h]

/-- Helper: the string-body parsing loop inverts safe rendering given
covering fuel. -/
theorem parseStrBodyGo_safe (cs : List Char) :
    ∀ fuel, cs.length < fuel → cs.all jsonSafeChar = true → ∀ rest : List Char,
      parseStrBodyGo fuel (cs ++ '"' :: rest) = some (cs, rest) := by
  induction cs with
  | nil =>
    intro fuel hf _ rest
    cases fuel with
    | zero => omega
    | succ f => rfl
  | cons c cs' ih =>
    intro fuel hf hsafe rest
    cases fuel with
    | zero => omega
    | succ f =>
      simp only [List.all_cons, Bool.and_eq_true] at hsafe
      have h := hsafe.1
      simp only [jsonSafeChar, Bool.and_eq_true, decide_eq_true_eq] at h
      obtain ⟨⟨⟨h1, h2⟩, h3⟩, h4⟩ := h
      simp only [List.cons_append, parseStrBodyGo, if_neg h3, if_neg h4, List.append_eq,
        ih f (by simp only [List.length_cons] at hf; omega) hsafe.2 rest]

/-- Helper: the string-body parser inverts safe rendering. -/
theorem parseStrBody_safe (cs : List Char) (hsafe : cs.all jsonSafeChar = true)
    (rest : List Char) : parseStrBody (cs ++ '"' :: rest) = some (cs, rest) := by
  unfold parseStrBody
  exact parseStrBodyGo_safe cs _ (by simp only [List.length_append, List.length_cons]; omega) hsafe rest

/-- Helper: the digit expansion is fuel-insensitive once the fuel covers the
value. -/
theorem natDigitsGo_fuel (fuel : Nat) :
    ∀ (fuel' n : Nat), n < fuel → n < fuel' → natDigitsGo fuel n = natDigitsGo fuel' n := by
  induction fuel with
  | zero => intro fuel' n h _; omega
  | succ f ih =>
    intro fuel' n h h'
    cases fuel' with
    | zero => omega
    | succ f' =>
      simp only [natDigitsGo]
      by_cases h10 : n < 10
      · simp [h10]
      · rw [if_neg h10, if_neg h10, ih f' (n / 10) (by omega) (by omega)]

/-- Helper: the digit expansion with covering fuel. -/
theorem natDigitsGo_eq (fuel n : Nat) (h : n < fuel) : natDigitsGo fuel n = natDigits n :=
  natDigitsGo_fuel fuel (n + 1) n h (Nat.lt_succ_self n)

/-- Helper: digit characters are digits. -/
theorem isDigit_digitChar (n : Nat) : isDigitChar (digitChar n) = true := by
  have h : n % 10 < 10 := Nat.mod_lt _ (by omega)
  unfold digitChar
  set m := n % 10 with hm
  interval_cases m <;> decide

/-- Helper: the rendered digits are all digit characters. -/
theorem natDigitsGo_digits (fuel : Nat) :
    ∀ n, (natDigitsGo fuel n).all isDigitChar = true := by
  induction fuel with
  | zero => intro n; rfl
  | succ f ih =>
    intro n
    simp only [natDigitsGo]
    by_cases h10 : n < 10
    · simp [h10, isDigit_digitChar]
    · rw [if_neg h10]
      simp [List.all_append, ih (n / 10), isDigit_digitChar]

/-- Helper: the digit expansion is never empty. -/
theorem natDigits_ne_nil (n : Nat) : natDigits n ≠ [] := by
  unfold natDigits natDigitsGo
  by_cases h10 : n < 10
  · simp [h10]
  · simp [h10]

/-- Helper: a digit character's code point. -/
theorem digitChar_toNat (n : Nat) : (digitChar n).toNat = 48 + n % 10 := by
  have h : n % 10 < 10 := Nat.mod_lt _ (by omega)
  unfold digitChar
  set m := n % 10 with hm
  interval_cases m <;> decide

/-- Helper: folding the digit values over the expansion reconstructs the
number above any accumulator. -/
theorem foldl_natDigits (n : Nat) :
    ∀ acc, List.foldl (fun a c => a * 10 + (c.toNat - 48)) acc (natDigits n) =
      acc * 10 ^ (natDigits n).length + n := by
  induction n using Nat.strong_induction_on with
  | _ n ih =>
    intro acc
    by_cases h10 : n < 10
    · have hd : natDigits n = [digitChar n] := by simp [natDigits, natDigitsGo, h10]
      rw [hd]
      simp only [List.foldl_cons, List.foldl_nil, List.length_cons, List.length_nil,
        digitChar_toNat]
      have hmod : n % 10 = n := Nat.mod_eq_of_lt h10
      rw [hmod]
      norm_num
    · have hlt : n / 10 < n := Nat.div_lt_self (by omega) (by omega)
      have hd : natDigits n = natDigits (n / 10) ++ [digitChar (n % 10)] := by
        rw [natDigits,
          show natDigitsGo (n + 1) n =
            if n < 10 then [digitChar n]
            else natDigitsGo n (n / 10) ++ [digitChar (n % 10)] from rfl,
          if_neg h10, natDigitsGo_eq n (n / 10) hlt]
      rw [hd, List.foldl_append]
      simp only [List.foldl_cons, List.foldl_nil, digitChar_toNat, List.length_append,
        List.length_cons, List.length_nil]
      rw [ih (n / 10) hlt acc]
      have hmod : n % 10 % 10 = n % 10 := Nat.mod_mod_of_dvd _ (by omega)
      rw [show (natDigits (n / 10)).length + (0 + 1) = (natDigits (n / 10)).length + 1 by omega,
        pow_succ, ← Nat.mul_assoc]
      omega

/-- Helper: parsing the rendered digits recovers the number. -/
theorem digitsToNat_natDigits (n : Nat) : digitsToNat (natDigits n) = n := by
  have h := foldl_natDigits n 0
  simpa [digitsToNat] using h

/-- Helper: a digit run stops exactly at the first non-digit. -/
theorem spanDigits_exact (ds : List Char) (hall : ds.all isDigitChar = true)
    (rest : List Char) (hrest : ∀ c, rest.head? = some c → isDigitChar c = false) :
    spanDigits (ds ++ rest) = (ds, rest) := by
  induction ds with
  | nil =>
    cases rest with
    | nil => rfl
    | cons c r =>
      simp only [List.nil_append, spanDigits, hrest c rfl]
      rfl
  | cons d ds' ih =>
    simp only [List.all_cons, Bool.and_eq_true] at hall
    simp only [List.cons_append, spanDigits, hall.1, if_true, List.append_eq, ih hall.2]

end JsonRoundTrip

section JsonObjRoundTrip

open Js StrUtil

/-- Helper: digit characters are none of the parser's marker characters. -/
theorem digit_not_special (c : Char) (h : isDigitChar c = true) :
    ¬ c = ' ' ∧ ¬ c = Char.ofNat 9 ∧ ¬ c = Char.ofNat 10 ∧ ¬ c = Char.ofNat 13 ∧
    ¬ c = '"' ∧ ¬ c = '{' ∧ ¬ c = '[' ∧ ¬ c = 't' ∧ ¬ c = 'f' ∧ ¬ c = 'n' := by
  refine ⟨?_, ?_, ?_, ?_, ?_, ?_, ?_, ?_, ?_, ?_⟩ <;>
    exact fun heq => by rw [heq] at h; exact absurd h (by decide)

/-- Helper: whitespace skipping leaves a non-whitespace head alone. -/
theorem skipWs_not_ws (c : Char) (xs : List Char) (h1 : ¬ c = ' ') (h2 : ¬ c = Char.ofNat 9)
    (h3 : ¬ c = Char.ofNat 10) (h4 : ¬ c = Char.ofNat 13) : skipWs (c :: xs) = c :: xs := by
  simp only [skipWs]
  rw [if_neg (by rintro (h | h | h | h) <;> simp_all)]

/-- Helper: parsing the rendering of a safe flat value recovers it when the
remainder does not begin with a digit. -/
theorem parseVal_render_flat (fuel fr : Nat) (hfr : 1 ≤ fr) (v : Json)
    (hv : (match v with
      | .str s => jsonSafe s
      | .num _ => true
      | _ => false) = true)
    (rest : List Char) (hrest : ∀ c, rest.head? = some c → isDigitChar c = false) :
    parseVal (fuel + 1) (renderGo fr v ++ rest) = some (v, rest) := by
  obtain ⟨g, rfl⟩ : ∃ g, fr = g + 1 := ⟨fr - 1, by omega⟩
  cases v with
  | str s =>
    rw [show renderGo (g + 1) (.str s) = renderStr s from rfl, renderStr_safe s hv,
      show ('"' :: s.data ++ ['"']) ++ rest = '"' :: (s.data ++ '"' :: rest) by simp]
    simp only [parseVal]
    rw [show skipWs ('"' :: (s.data ++ '"' :: rest)) = '"' :: (s.data ++ '"' :: rest) from rfl]
    simp only [parseStrBody_safe s.data hv rest, if_pos rfl]
    rfl
  | num n =>
    rw [show renderGo (g + 1) (.num n) = natDigits n from rfl]
    obtain ⟨d, ds, hd⟩ : ∃ d ds, natDigits n = d :: ds := by
      cases h : natDigits n with
      | nil => exact absurd h (natDigits_ne_nil n)
      | cons d ds => exact ⟨d, ds, rfl⟩
    have hds : (d :: ds).all isDigitChar = true := by
      rw [← hd]
      exact natDigitsGo_digits (n + 1) n
    have hdd : isDigitChar d = true := by
      simp only [List.all_cons, Bool.and_eq_true] at hds
      exact hds.1
    obtain ⟨p1, p2, p3, p4, p5, p6, p7, p8, p9, p10⟩ := digit_not_special d hdd
    rw [hd, List.cons_append]
    simp only [parseVal]
    rw [skipWs_not_ws d _ p1 p2 p3 p4]
    dsimp only
    rw [if_neg p5, if_neg p6, if_neg p7, if_neg p8, if_neg p9, if_neg p10, if_pos hdd]
    rw [show (d :: (ds ++ rest)) = (d :: ds) ++ rest from rfl,
      spanDigits_exact (d :: ds) hds rest hrest, ← hd, digitsToNat_natDigits n]
  | null => simp at hv
  | bool b => simp at hv
  | arr xs => simp at hv
  | obj fs => simp at hv

/-- Helper: the rendering of nonempty fields with a safe first key starts
with a quote. -/
theorem renderObjGo_head (kv : String × Json) (fs : List (String × Json))
    (hk : jsonSafe kv.1 = true) :
    ∃ t, renderGo.renderObjGo 63 (kv :: fs) = '"' :: t := by
  cases fs with
  | nil =>
    rw [show renderGo.renderObjGo 63 [kv] = renderStr kv.1 ++ ':' :: renderGo 63 kv.2 from rfl,
      renderStr_safe kv.1 hk]
    exact ⟨_, rfl⟩
  | cons f2 fs' =>
    rw [show renderGo.renderObjGo 63 (kv :: f2 :: fs') =
      renderStr kv.1 ++ ':' :: renderGo 63 kv.2 ++ ',' :: renderGo.renderObjGo 63 (f2 :: fs')
      from rfl, renderStr_safe kv.1 hk]
    exact ⟨_, rfl⟩

/-- Helper: the rendering of fields is at least as long as the field list. -/
theorem renderObjGo_length_ge (fs : List (String × Json)) :
    fs.length ≤ (renderGo.renderObjGo 63 fs).length := by
  induction fs with
  | nil => simp
  | cons kv fs' ih =>
    cases fs' with
    | nil =>
      rw [show renderGo.renderObjGo 63 [kv] = renderStr kv.1 ++ ':' :: renderGo 63 kv.2 from rfl]
      simp [renderStr]
    | cons f2 fs'' =>
      rw [show renderGo.renderObjGo 63 (kv :: f2 :: fs'') =
        renderStr kv.1 ++ ':' :: renderGo 63 kv.2 ++ ',' :: renderGo.renderObjGo 63 (f2 :: fs'')
        from rfl]
      simp only [List.length_cons, List.length_append]
      have := ih
      simp only [List.length_cons] at this ⊢
      omega

/-- Helper: one key-value field parses back from its rendering. -/
theorem parseOneField_render (g : Nat) (hg : 2 ≤ g) (k : String) (hk : jsonSafe k = true)
    (v : Json)
    (hv : (match v with
      | .str s => jsonSafe s
      | .num _ => true
      | _ => false) = true)
    (tail : List Char) (htail : ∀ c, tail.head? = some c → isDigitChar c = false) :
    parseVal.parseOneField g (renderStr k ++ ':' :: renderGo 63 v ++ tail) =
      some (k, v, tail) := by
  obtain ⟨g', rfl⟩ : ∃ g', g = g' + 1 := ⟨g - 1, by omega⟩
  obtain ⟨g'', rfl⟩ : ∃ g'', g' = g'' + 1 := ⟨g' - 1, by omega⟩
  rw [renderStr_safe k hk,
    show ('"' :: k.data ++ ['"']) ++ ':' :: renderGo 63 v ++ tail =
      '"' :: (k.data ++ '"' :: (':' :: (renderGo 63 v ++ tail))) by simp]
  simp only [parseVal.parseOneField]
  rw [show skipWs ('"' :: (k.data ++ '"' :: (':' :: (renderGo 63 v ++ tail)))) =
    '"' :: (k.data ++ '"' :: (':' :: (renderGo 63 v ++ tail))) from rfl]
  simp only [parseStrBody_safe k.data hk _]
  rw [show skipWs (':' :: (renderGo 63 v ++ tail)) = ':' :: (renderGo 63 v ++ tail) from rfl]
  simp only [parseVal_render_flat g'' 63 (by omega) v hv tail htail]

/-- Helper: a nonempty flat field list parses back from its rendering up to
the closing brace. -/
theorem parseObjFields_render (fs : List (String × Json)) :
    ∀ (fuel : Nat) (first : Bool) (rest : List Char), fs ≠ [] →
      fs.all flatField = true → fs.length + 2 ≤ fuel →
      parseVal.parseObjFields fuel (renderGo.renderObjGo 63 fs ++ '}' :: rest) first =
        some (.obj fs, rest) := by
  induction fs with
  | nil => intro _ _ _ hne; exact absurd rfl hne
  | cons kv fs' ih =>
    intro fuel first rest _ hflat hfuel
    obtain ⟨f, rfl⟩ : ∃ f, fuel = f + 1 := ⟨fuel - 1, by omega⟩
    simp only [List.all_cons, Bool.and_eq_true] at hflat
    have hkv := hflat.1
    simp only [flatField, Bool.and_eq_true] at hkv
    obtain ⟨hk, hv⟩ := hkv
    cases fs' with
    | nil =>
      rw [show renderGo.renderObjGo 63 [kv] = renderStr kv.1 ++ ':' :: renderGo 63 kv.2
          from rfl, renderStr_safe kv.1 hk,
        show (('"' :: kv.1.data ++ ['"']) ++ ':' :: renderGo 63 kv.2) ++ '}' :: rest =
          '"' :: (kv.1.data ++ ['"'] ++ (':' :: (renderGo 63 kv.2 ++ '}' :: rest))) by simp]
      simp only [parseVal.parseObjFields]
      rw [if_neg (by simp)]
      have hone := parseOneField_render f
        (by simp only [List.length_cons, List.length_nil] at hfuel; omega) kv.1 hk kv.2 hv
        ('}' :: rest) (fun c hc => by simp at hc; subst hc; decide)
      rw [renderStr_safe kv.1 hk] at hone
      rw [show ('"' :: (kv.1.data ++ ['"'] ++ (':' :: (renderGo 63 kv.2 ++ '}' :: rest)))) =
        (('"' :: kv.1.data ++ ['"']) ++ ':' :: renderGo 63 kv.2 ++ '}' :: rest) by simp]
      simp only [hone]
      rw [show skipWs ('}' :: rest) = '}' :: rest from rfl]
      rfl
    | cons f2 fs'' =>
      rw [show renderGo.renderObjGo 63 (kv :: f2 :: fs'') =
        renderStr kv.1 ++ ':' :: renderGo 63 kv.2 ++ ',' :: renderGo.renderObjGo 63 (f2 :: fs'')
          from rfl, renderStr_safe kv.1 hk]
      have hf2 : jsonSafe f2.1 = true := by
        have h2 := hflat.2
        simp only [List.all_cons, Bool.and_eq_true, flatField] at h2
        exact h2.1.1
      obtain ⟨t2, ht2⟩ := renderObjGo_head f2 fs'' hf2
      rw [show (('"' :: kv.1.data ++ ['"']) ++ ':' :: renderGo 63 kv.2 ++
            ',' :: renderGo.renderObjGo 63 (f2 :: fs'')) ++ '}' :: rest =
          '"' :: (kv.1.data ++ ['"'] ++ (':' :: (renderGo 63 kv.2 ++
            ',' :: (renderGo.renderObjGo 63 (f2 :: fs'') ++ '}' :: rest)))) by simp]
      simp only [parseVal.parseObjFields]
      rw [if_neg (by simp)]
      have hone := parseOneField_render f
        (by simp only [List.length_cons, List.length_nil] at hfuel; omega) kv.1 hk kv.2 hv
        (',' :: (renderGo.renderObjGo 63 (f2 :: fs'') ++ '}' :: rest))
        (fun c hc => by simp at hc; subst hc; decide)
      rw [renderStr_safe kv.1 hk] at hone
      rw [show ('"' :: (kv.1.data ++ ['"'] ++ (':' :: (renderGo 63 kv.2 ++
            ',' :: (renderGo.renderObjGo 63 (f2 :: fs'') ++ '}' :: rest))))) =
          (('"' :: kv.1.data ++ ['"']) ++ ':' :: renderGo 63 kv.2 ++
            ',' :: (renderGo.renderObjGo 63 (f2 :: fs'') ++ '}' :: rest)) by simp]
      simp only [hone]
      rw [ht2,
        show skipWs (',' :: ('"' :: t2 ++ '}' :: rest)) = ',' :: ('"' :: t2 ++ '}' :: rest)
          from rfl]
      show (match parseVal.parseObjFields f (skipWs ('"' :: t2 ++ '}' :: rest)) false with
        | some (Json.obj fs, rem3) => some (Json.obj ((kv.1, kv.2) :: fs), rem3)
        | _ => none) = some (Json.obj (kv :: f2 :: fs''), rest)
      rw [show skipWs ('"' :: t2 ++ '}' :: rest) = '"' :: t2 ++ '}' :: rest from rfl]
      have hih := ih f false rest (by simp) hflat.2 (by simp at hfuel ⊢; omega)
      rw [ht2] at hih
      simp only [List.cons_append] at hih ⊢
      simp only [hih]

/-- Helper: digit characters are ASCII. -/
theorem isDigitChar_ascii (c : Char) (h : isDigitChar c = true) : c.toNat < 128 := by
  simp only [isDigitChar, Bool.and_eq_true, decide_eq_true_eq] at h
  omega

/-- Helper: JSON-safe characters are ASCII. -/
theorem jsonSafeChar_ascii (c : Char) (h : jsonSafeChar c = true) : c.toNat < 128 := by
  simp only [jsonSafeChar, Bool.and_eq_true, decide_eq_true_eq] at h
  have := h.1.1.2
  omega

/-- Helper: a safe string renders to ASCII characters. -/
theorem renderStr_ascii (s : String) (h : jsonSafe s = true) :
    ∀ c ∈ renderStr s, c.toNat < 128 := by
  rw [renderStr_safe s h]
  intro c hc
  simp only [List.mem_cons, List.mem_append, List.mem_singleton, List.not_mem_nil,
    or_false] at hc
  rcases hc with (rfl | hc) | rfl
  · decide
  · refine jsonSafeChar_ascii c ?_
    simp only [jsonSafe, List.all_eq_true] at h
    exact h c hc
  · decide

/-- Helper: rendered digits are ASCII. -/
theorem natDigits_ascii (n : Nat) : ∀ c ∈ natDigits n, c.toNat < 128 := by
  intro c hc
  have h := natDigitsGo_digits (n + 1) n
  rw [List.all_eq_true] at h
  exact isDigitChar_ascii c (h c hc)

/-- Helper: a flat value renders to ASCII characters. -/
theorem renderGo_flat_ascii (v : Json)
    (hv : (match v with
      | .str s => jsonSafe s
      | .num _ => true
      | _ => false) = true) :
    ∀ c ∈ renderGo 63 v, c.toNat < 128 := by
  match v with
  | .str s =>
    intro c hc
    rw [show renderGo 63 (.str s) = renderStr s from rfl] at hc
    exact renderStr_ascii s hv c hc
  | .num n =>
    intro c hc
    rw [show renderGo 63 (.num n) = natDigits n from rfl] at hc
    exact natDigits_ascii n c hc

/-- Helper: a flat field list renders to ASCII characters. -/
theorem renderObjGo_ascii (fs : List (String × Json)) (hflat : fs.all flatField = true) :
    ∀ c ∈ renderGo.renderObjGo 63 fs, c.toNat < 128 := by
  induction fs with
  | nil => intro c hc; simp [renderGo.renderObjGo] at hc
  | cons kv fs' ih =>
    simp only [List.all_cons, Bool.and_eq_true] at hflat
    have hkv := hflat.1
    simp only [flatField, Bool.and_eq_true] at hkv
    cases fs' with
    | nil =>
      intro c hc
      rw [show renderGo.renderObjGo 63 [kv] = renderStr kv.1 ++ ':' :: renderGo 63 kv.2
        from rfl] at hc
      simp only [List.mem_append, List.mem_cons] at hc
      rcases hc with hc | rfl | hc
      · exact renderStr_ascii kv.1 hkv.1 c hc
      · decide
      · exact renderGo_flat_ascii kv.2 hkv.2 c hc
    | cons f2 fs'' =>
      intro c hc
      rw [show renderGo.renderObjGo 63 (kv :: f2 :: fs'') = renderStr kv.1 ++ ':' ::
        renderGo 63 kv.2 ++ ',' :: renderGo.renderObjGo 63 (f2 :: fs'') from rfl] at hc
      simp only [List.mem_append, List.mem_cons] at hc
      rcases hc with (hc | rfl | hc) | rfl | hc
      · exact renderStr_ascii kv.1 hkv.1 c hc
      · decide
      · exact renderGo_flat_ascii kv.2 hkv.2 c hc
      · decide
      · exact ih hflat.2 c hc

/-- Helper: a rendered flat object is ASCII. -/
theorem render_obj_ascii (fs : List (String × Json)) (hflat : fs.all flatField = true) :
    ∀ c ∈ render (.obj fs), c.toNat < 128 := by
  intro c hc
  rw [show render (.obj fs) = '{' :: (renderGo.renderObjGo 63 fs ++ ['}']) from rfl] at hc
  simp only [List.mem_cons, List.mem_append, List.mem_singleton, List.not_mem_nil,
    or_false] at hc
  rcases hc with rfl | hc | rfl
  · decide
  · exact renderObjGo_ascii fs hflat c hc
  · decide

/-- Helper: folding property lookup over fields holding no matching key
keeps the accumulator. -/
theorem jget_foldl_acc (gs : List (String × Json)) (k : String)
    (h : ∀ kv ∈ gs, kv.1 ≠ k) (acc : Option Json) :
    gs.foldl (fun acc kv => if kv.1 = k then some kv.2 else acc) acc = acc := by
  induction gs generalizing acc with
  | nil => rfl
  | cons kv gs' ih =>
    simp only [List.foldl_cons]
    rw [if_neg (h kv (List.mem_cons_self kv gs'))]
    exact ih (fun x hx => h x (List.mem_cons_of_mem kv hx)) acc

/-- Helper: a key appended last wins the lookup (`JSON.parse` semantics). -/
theorem jget_append_last (fs : List (String × Json)) (k : String) (v : Json) :
    jget (.obj (fs ++ [(k, v)])) k = some v := by
  simp only [jget, List.foldl_append, List.foldl_cons, List.foldl_nil, if_pos rfl, if_true]

/-- Helper: appended fields with other keys do not affect the lookup. -/
theorem jget_append_skip (fs gs : List (String × Json)) (k : String)
    (h : ∀ kv ∈ gs, kv.1 ≠ k) :
    jget (.obj (fs ++ gs)) k = jget (.obj fs) k := by
  simp only [jget, List.foldl_append]
  exact jget_foldl_acc gs k h _

/-- Helper: `JSON.parse` inverts compact rendering on nonempty flat
objects, exactly the documents this system's JWTs carry. -/
theorem jsonParse_render_obj (fs : List (String × Json)) (hne : fs ≠ [])
    (hflat : fs.all flatField = true) :
    jsonParse (render (.obj fs)) = some (.obj fs) := by
  obtain ⟨kv, fs', rfl⟩ : ∃ kv fs'', fs = kv :: fs'' := by
    cases fs with
    | nil => exact absurd rfl hne
    | cons a b => exact ⟨a, b, rfl⟩
  have hk : jsonSafe kv.1 = true := by
    have h1 : flatField kv = true := by
      simp only [List.all_cons, Bool.and_eq_true] at hflat
      exact hflat.1
    simp only [flatField, Bool.and_eq_true] at h1
    exact h1.1
  obtain ⟨t, ht⟩ := renderObjGo_head kv fs' hk
  simp only [jsonParse,
    show render (.obj (kv :: fs')) = '{' :: (renderGo.renderObjGo 63 (kv :: fs') ++ ['}'])
      from rfl]
  rw [show ('{' :: (renderGo.renderObjGo 63 (kv :: fs') ++ ['}'])).length + 1 =
    ((renderGo.renderObjGo 63 (kv :: fs')).length + 2) + 1 by simp,
    show parseVal ((renderGo.renderObjGo 63 (kv :: fs')).length + 2 + 1)
        ('{' :: (renderGo.renderObjGo 63 (kv :: fs') ++ ['}'])) =
      parseVal.parseObjFields ((renderGo.renderObjGo 63 (kv :: fs')).length + 2)
        (skipWs (renderGo.renderObjGo 63 (kv :: fs') ++ ['}'])) true from rfl,
    ht, show skipWs (('"' :: t) ++ ['}']) = ('"' :: t) ++ ['}'] from rfl, ← ht]
  have hobj := parseObjFields_render (kv :: fs')
    ((renderGo.renderObjGo 63 (kv :: fs')).length + 2) true [] (by simp) hflat
    (by have := renderObjGo_length_ge (kv :: fs'); omega)
  rw [hobj]
  rfl

end JsonObjRoundTrip

section JwtRoundTrip

open StrUtil Js Crypto Jwt JwtTs

/-- Helper: base64url of a string's bytes contains no dot. -/
theorem b64OfStr_no_dot (s : List Char) : '.' ∉ Jwt.b64OfStr s :=
  encode_no_dot _

/-- Helper: splitting a three-segment token at the dots recovers the
segments. -/
theorem splitDots_jwt (h p s : List Char) (hh : '.' ∉ h) (hp : '.' ∉ p) (hs : '.' ∉ s) :
    splitDots ((h ++ '.' :: p) ++ '.' :: s) = [h, p, s] := by
  rw [show (h ++ '.' :: p) ++ '.' :: s = h ++ '.' :: (p ++ '.' :: s) by simp,
    splitDots_append_dot h _ hh, splitDots_append_dot p _ hp, splitDots_no_dot s hs]

/-- Helper: the symbolic RS256 signature consists of bytes. -/
theorem rs256Sign_lt256 (keyId : Nat) (msg : List Char) :
    ∀ b ∈ Jwt.rs256Sign keyId msg, b < 256 := by
  intro b hb
  rw [show Jwt.rs256Sign keyId msg = keyId % 256 :: utf8Encode msg from rfl] at hb
  rcases List.mem_cons.mp hb with rfl | hb
  · exact Nat.mod_lt _ (by omega)
  · exact utf8Encode_lt256 _ b hb

/-- Helper: decoding one encoded JWT segment recovers its flat document. -/
theorem jsonParse_seg (fs : List (String × Json)) (hne : fs ≠ [])
    (hflat : fs.all flatField = true) :
    jsonParse (utf8Decode (B64.decode (Jwt.b64OfStr (render (.obj fs))))) =
      some (.obj fs) := by
  rw [show Jwt.b64OfStr (render (.obj fs)) = B64.encode (utf8Encode (render (.obj fs)))
      from rfl,
    b64_decode_encode _ (utf8Encode_lt256 _),
    utf8_roundtrip_ascii _ (render_obj_ascii fs hflat),
    jsonParse_render_obj fs hne hflat]

/-- Helper: a signed token splits into its header, payload and signature
segments. -/
theorem splitDots_jwtSign (claims : List (String × Json)) (keyId expiry now : Nat) :
    splitDots (Jwt.jwtSign claims keyId expiry now) =
      [Jwt.jwtHeaderSeg, Jwt.jwtPayloadSeg claims expiry now,
       Jwt.jwtSigSeg claims keyId expiry now] := by
  rw [show Jwt.jwtSign claims keyId expiry now =
    (Jwt.jwtHeaderSeg ++ '.' :: Jwt.jwtPayloadSeg claims expiry now) ++
      '.' :: Jwt.jwtSigSeg claims keyId expiry now from rfl]
  exact splitDots_jwt _ _ _ (b64OfStr_no_dot _) (b64OfStr_no_dot _) (encode_no_dot _)

/-- Helper: looking up a claim other than `iat`/`exp` in the signed payload
reads the claim list. -/
theorem jget_payload_skip (claims : List (String × Json)) (expiry now : Nat) (k : String)
    (h1 : k ≠ "iat") (h2 : k ≠ "exp") :
    jget (Jwt.jwtPayloadJson claims expiry now) k = jget (.obj claims) k := by
  rw [show Jwt.jwtPayloadJson claims expiry now =
    Json.obj (claims ++ [("iat", Json.num now), ("exp", Json.num (now + expiry))]) from rfl]
  refine jget_append_skip _ _ _ ?_
  intro kv hkv
  rcases List.mem_cons.mp hkv with rfl | hkv
  · exact fun he => h1 he.symm
  · rcases List.mem_cons.mp hkv with rfl | hkv
    · exact fun he => h2 he.symm
    · exact absurd hkv (List.not_mem_nil kv)

/-- Helper: the modelled `jwt.verify` inverts `jwt.sign` under the same key
inside the expiry window, yielding the claim set extended with `iat` and
`exp`. -/
theorem jwtVerify_jwtSign (claims : List (String × Json)) (keyId expiry now now2 : Nat)
    (hflat : claims.all flatField = true) (hnow : now2 < now + expiry) :
    Jwt.jwtVerify (Jwt.jwtSign claims keyId expiry now) keyId now2 =
      .ok (Jwt.jwtPayloadJson claims expiry now) := by
  have hpflat : (claims ++ [("iat", Json.num now), ("exp", Json.num (now + expiry))]).all
      flatField = true := by
    rw [List.all_append, hflat, Bool.true_and]
    rfl
  have hheader : jsonParse (utf8Decode (B64.decode Jwt.jwtHeaderSeg)) =
      some Jwt.jwtHeaderJson :=
    jsonParse_seg [("alg", .str "RS256"), ("typ", .str "JWT")] (by simp) (by decide)
  have hpayload : jsonParse (utf8Decode (B64.decode
      (Jwt.jwtPayloadSeg claims expiry now))) =
      some (Jwt.jwtPayloadJson claims expiry now) :=
    jsonParse_seg _ (by simp) hpflat
  have hsig : B64.decode (Jwt.jwtSigSeg claims keyId expiry now) =
      Jwt.rs256Sign keyId (Jwt.jwtHeaderSeg ++ '.' :: Jwt.jwtPayloadSeg claims expiry now) :=
    b64_decode_encode _ (rs256Sign_lt256 _ _)
  have hje : jget (Jwt.jwtPayloadJson claims expiry now) "exp" =
      some (.num (now + expiry)) := by
    rw [show Jwt.jwtPayloadJson claims expiry now =
      Json.obj ((claims ++ [("iat", Json.num now)]) ++ [("exp", Json.num (now + expiry))])
        by simp [Jwt.jwtPayloadJson]]
    exact jget_append_last _ _ _
  have hexp : jgetNum (Jwt.jwtPayloadJson claims expiry now) "exp" = some (now + expiry) := by
    simp only [jgetNum, hje]
  simp only [Jwt.jwtVerify, splitDots_jwtSign]
  simp only [hheader]
  rw [if_neg (by decide)]
  rw [hsig, if_neg (fun hco => hco rfl)]
  simp only [hpayload, hexp]
  rw [if_neg (by omega)]

/-- Helper: `verifyAccessToken` accepts a freshly signed access token inside
the expiry window (with either no expected fingerprint or the signed one)
and returns the signed payload. -/
theorem verifyAccessToken_signAccessToken (sub email role fp ip jti : String)
    (tv now now2 : Nat) (fpArg : Option String)
    (hflat : (accessClaims sub email role tv fp ip jti).all flatField = true)
    (hsub : sub ≠ "") (hemail : email ≠ "") (hrole : role ≠ "")
    (hfpArg : fpArg = none ∨ fpArg = some fp)
    (hnow : now2 < now + accessTokenExpirySec) :
    verifyAccessToken
      (signAccessToken
        { sub := sub, email := email, role := role, tokenVersion := tv
          fingerprint := some fp, ip := some ip } jti now) fpArg now2 =
      .ok (Jwt.jwtPayloadJson (accessClaims sub email role tv fp ip jti)
        accessTokenExpirySec now) := by
  have hheader : jsonParse (utf8Decode (B64.decode Jwt.jwtHeaderSeg)) =
      some Jwt.jwtHeaderJson :=
    jsonParse_seg [("alg", .str "RS256"), ("typ", .str "JWT")] (by simp) (by decide)
  have halg : algGate Jwt.jwtHeaderJson = .ok () := rfl
  have hver := jwtVerify_jwtSign (accessClaims sub email role tv fp ip jti)
    Jwt.accessKeyId accessTokenExpirySec now now2 hflat hnow
  have h1 : jget (Jwt.jwtPayloadJson (accessClaims sub email role tv fp ip jti)
      accessTokenExpirySec now) "sub" = some (.str sub) := by
    rw [jget_payload_skip _ _ _ _ (by decide) (by decide)]; rfl
  have h2 : jget (Jwt.jwtPayloadJson (accessClaims sub email role tv fp ip jti)
      accessTokenExpirySec now) "email" = some (.str email) := by
    rw [jget_payload_skip _ _ _ _ (by decide) (by decide)]; rfl
  have h3 : jget (Jwt.jwtPayloadJson (accessClaims sub email role tv fp ip jti)
      accessTokenExpirySec now) "role" = some (.str role) := by
    rw [jget_payload_skip _ _ _ _ (by decide) (by decide)]; rfl
  have h4 : jget (Jwt.jwtPayloadJson (accessClaims sub email role tv fp ip jti)
      accessTokenExpirySec now) "fingerprint" = some (.str fp) := by
    rw [jget_payload_skip _ _ _ _ (by decide) (by decide)]; rfl
  have hfpv : jgetStr (Jwt.jwtPayloadJson (accessClaims sub email role tv fp ip jti)
      accessTokenExpirySec now) "fingerprint" = some fp := by
    simp only [jgetStr, h4]
  rw [show signAccessToken
      { sub := sub, email := email, role := role, tokenVersion := tv
        fingerprint := some fp, ip := some ip } jti now =
    Jwt.jwtSign (accessClaims sub email role tv fp ip jti) Jwt.accessKeyId
      accessTokenExpirySec now from rfl]
  simp only [verifyAccessToken, splitDots_jwtSign]
  rw [if_neg (by simp)]
  have hgd : (([Jwt.jwtHeaderSeg,
      Jwt.jwtPayloadSeg (accessClaims sub email role tv fp ip jti) accessTokenExpirySec now,
      Jwt.jwtSigSeg (accessClaims sub email role tv fp ip jti) Jwt.accessKeyId
        accessTokenExpirySec now].get? 0)).getD ([] : List Char) = Jwt.jwtHeaderSeg := rfl
  simp only [List.getD, hgd, hheader, halg, hver]
  rw [if_neg ?hcond]
  case hcond =>
    simp only [h1, h2, h3, jsFalsy, decide_eq_true_eq]
    push_neg
    exact ⟨hsub, hemail, hrole⟩
  rcases hfpArg with rfl | rfl
  · rfl
  · exact if_neg (fun hco => hco.2.2 hfpv)

/-- Helper: `verifyRefreshToken` accepts a freshly signed refresh token
inside the expiry window and returns the signed payload. -/
theorem verifyRefreshToken_signRefreshToken (sub family : String) (tv now now2 : Nat)
    (hflat : (refreshClaims sub family tv).all flatField = true)
    (hsub : sub ≠ "") (hfam : family ≠ "")
    (hnow : now2 < now + refreshTokenExpirySec) :
    verifyRefreshToken (signRefreshToken { sub := sub, family := family, tokenVersion := tv }
        now) now2 =
      .ok (Jwt.jwtPayloadJson (refreshClaims sub family tv) refreshTokenExpirySec now) := by
  have hheader : jsonParse (utf8Decode (B64.decode Jwt.jwtHeaderSeg)) =
      some Jwt.jwtHeaderJson :=
    jsonParse_seg [("alg", .str "RS256"), ("typ", .str "JWT")] (by simp) (by decide)
  have halg : algGate Jwt.jwtHeaderJson = .ok () := rfl
  have hver := jwtVerify_jwtSign (refreshClaims sub family tv)
    Jwt.refreshKeyId refreshTokenExpirySec now now2 hflat hnow
  have h1 : jget (Jwt.jwtPayloadJson (refreshClaims sub family tv)
      refreshTokenExpirySec now) "sub" = some (.str sub) := by
    rw [jget_payload_skip _ _ _ _ (by decide) (by decide)]; rfl
  have h2 : jget (Jwt.jwtPayloadJson (refreshClaims sub family tv)
      refreshTokenExpirySec now) "family" = some (.str family) := by
    rw [jget_payload_skip _ _ _ _ (by decide) (by decide)]; rfl
  have h3 : jget (Jwt.jwtPayloadJson (refreshClaims sub family tv)
      refreshTokenExpirySec now) "type" = some (.str "refresh") := by
    rw [jget_payload_skip _ _ _ _ (by decide) (by decide)]; rfl
  have h3s : jgetStr (Jwt.jwtPayloadJson (refreshClaims sub family tv)
      refreshTokenExpirySec now) "type" = some "refresh" := by
    simp only [jgetStr, h3]
  rw [show signRefreshToken { sub := sub, family := family, tokenVersion := tv } now =
    Jwt.jwtSign (refreshClaims sub family tv) Jwt.refreshKeyId refreshTokenExpirySec now
      from rfl]
  simp only [verifyRefreshToken, splitDots_jwtSign]
  rw [if_neg (by simp)]
  have hgd : (([Jwt.jwtHeaderSeg,
      Jwt.jwtPayloadSeg (refreshClaims sub family tv) refreshTokenExpirySec now,
      Jwt.jwtSigSeg (refreshClaims sub family tv) Jwt.refreshKeyId
        refreshTokenExpirySec now].get? 0)).getD ([] : List Char) = Jwt.jwtHeaderSeg := rfl
  simp only [List.getD, hgd, hheader, halg, hver]
  rw [if_neg ?hcond]
  case hcond =>
    simp only [h1, h2, h3s, jsFalsy, decide_eq_true_eq]
    push_neg
    refine ⟨hsub, hfam, ?_⟩
    simp

end JwtRoundTrip

section ClaimC10

open Js JwtTs

/-- C10: round trip — for every user (`sub`, `email`, `role`,
`tokenVersion`), fingerprint and ip built of JSON-safe text with the
required claims truthy, verifying a freshly signed access token within its
expiry window succeeds, and the returned payload's `sub`, `role`,
`fingerprint` and `ip` equal the values that were signed. -/
theorem c10_access_token_roundtrip (sub email role fp ip jti : String) (tv now now2 : Nat)
    (hflat : (accessClaims sub email role tv fp ip jti).all flatField = true)
    (hsub : sub ≠ "") (hemail : email ≠ "") (hrole : role ≠ "")
    (hnow : now2 < now + accessTokenExpirySec) :
    ∃ payload,
      verifyAccessToken
        (signAccessToken
          { sub := sub, email := email, role := role, tokenVersion := tv
            fingerprint := some fp, ip := some ip } jti now) (some fp) now2 = .ok payload ∧
      jgetStr payload "sub" = some sub ∧ jgetStr payload "role" = some role ∧
      jgetStr payload "fingerprint" = some fp ∧ jgetStr payload "ip" = some ip := by
  refine ⟨_, verifyAccessToken_signAccessToken sub email role fp ip jti tv now now2
    (some fp) hflat hsub hemail hrole (.inr rfl) hnow, ?_, ?_, ?_, ?_⟩
  · simp only [jgetStr]
    rw [jget_payload_skip _ _ _ _ (by decide) (by decide)]
    rfl
  · simp only [jgetStr]
    rw [jget_payload_skip _ _ _ _ (by decide) (by decide)]
    rfl
  · simp only [jgetStr]
    rw [jget_payload_skip _ _ _ _ (by decide) (by decide)]
    rfl
  · simp only [jgetStr]
    rw [jget_payload_skip _ _ _ _ (by decide) (by decide)]
    rfl

/-- C10 witness: a concrete user's freshly signed token verifies and
returns the signed claims. -/
theorem c10_access_token_roundtrip_witness :
    ∃ payload,
      verifyAccessToken
        (signAccessToken
          { sub := "u1", email := "e@x.co", role := "user", tokenVersion := 0
            fingerprint := some "fp1", ip := some "1.2.3.4" } "jti1" 1000)
        (some "fp1") 1000 = .ok payload ∧
      jgetStr payload "sub" = some "u1" ∧ jgetStr payload "role" = some "user" ∧
      jgetStr payload "fingerprint" = some "fp1" ∧ jgetStr payload "ip" = some "1.2.3.4" :=
  c10_access_token_roundtrip "u1" "e@x.co" "user" "fp1" "1.2.3.4" "jti1" 0 1000 1000
    (by decide) (by decide) (by decide) (by decide) (by decide)

end ClaimC10

section ClaimC3

open Js JwtTs AuthSvc

/-- Helper: after replacing the matching row, lookup by that id finds the
replacement. -/
theorem find?_updateUser (users : List User) (u1 : User) :
    (∃ v ∈ users, v.id = u1.id) →
    (updateUser users u1).find? (fun v => some v.id = some u1.id) = some u1 := by
  induction users with
  | nil =>
    intro h
    rcases h with ⟨v, hv, _⟩
    exact absurd hv (List.not_mem_nil v)
  | cons w ws ih =>
    intro h
    show (((if w.id = u1.id then u1 else w) ::
      ws.map (fun v => if v.id = u1.id then u1 else v)).find?
        (fun v => some v.id = some u1.id)) = some u1
    by_cases hw : w.id = u1.id
    · rw [if_pos hw, List.find?_cons_of_pos _ (by simp)]
    · rw [if_neg hw, List.find?_cons_of_neg _ (by simp [hw])]
      have hex : ∃ v ∈ ws, v.id = u1.id := by
        rcases h with ⟨v, hv, hvid⟩
        rcases List.mem_cons.mp hv with rfl | hv
        · exact absurd hvid hw
        · exact ⟨v, hv, hvid⟩
      exact ih hex

/-- Helper: the `authenticate` middleware rejects a token signed for an
older `tokenVersion` with the 401 revocation response. -/
theorem authenticate_revoked (req : Fp.Req) (u u1 : User) (fp ip jti : String)
    (now nowMs2 : Nat) (env : String) (st2 : AuthState)
    (hflat : (accessClaims u.id u.email u.role u.tokenVersion fp ip jti).all
      flatField = true)
    (hid : u.id ≠ "") (hemail : u.email ≠ "") (hrole : u.role ≠ "")
    (hreq : AuthMw.getTokenFromHeader req =
      some (signAccessToken
        { sub := u.id, email := u.email, role := u.role, tokenVersion := u.tokenVersion
          fingerprint := some fp, ip := some ip } jti now))
    (hnow : nowMs2 / 1000 < now + accessTokenExpirySec)
    (hfind : st2.users.find? (fun v => some v.id = some u.id) = some u1)
    (hver : u1.tokenVersion = u.tokenVersion + 1) :
    AuthMw.authenticate req nowMs2 env st2 = .respond 401 "Token has been revoked" := by
  have hpj := verifyAccessToken_signAccessToken u.id u.email u.role fp ip jti
    u.tokenVersion now (nowMs2 / 1000) none hflat hid hemail hrole (.inl rfl) hnow
  have hsubget : jgetStr (Jwt.jwtPayloadJson
      (accessClaims u.id u.email u.role u.tokenVersion fp ip jti)
      accessTokenExpirySec now) "sub" = some u.id := by
    simp only [jgetStr]
    rw [jget_payload_skip _ _ _ _ (by decide) (by decide)]
    rfl
  have htv : jgetNum (Jwt.jwtPayloadJson
      (accessClaims u.id u.email u.role u.tokenVersion fp ip jti)
      accessTokenExpirySec now) "tokenVersion" = some u.tokenVersion := by
    simp only [jgetNum]
    rw [jget_payload_skip _ _ _ _ (by decide) (by decide)]
    rfl
  simp only [AuthMw.authenticate, hreq, hpj, hsubget, hfind, htv, hver]
  rw [if_pos (show some u.tokenVersion ≠ some (u.tokenVersion + 1) by
    intro hco
    injection hco with hco2
    omega)]

/-- C3: after `resetPassword` or `changePassword` succeeds for a user, the
user's `tokenVersion` is bumped, so the `authenticate` middleware rejects
every access token signed for the previous version with
401 "Token has been revoked". -/
theorem c3_password_change_invalidates_tokens
    (st : AuthState) (u : User) (resetTok newPassword currentPassword : String)
    (nowMs : Nat) (req : Fp.Req) (fp ip jti : String) (now nowMs2 : Nat) (env : String)
    (hflat : (accessClaims u.id u.email u.role u.tokenVersion fp ip jti).all
      flatField = true)
    (hid : u.id ≠ "") (hemail : u.email ≠ "") (hrole : u.role ≠ "")
    (hreq : AuthMw.getTokenFromHeader req =
      some (signAccessToken
        { sub := u.id, email := u.email, role := u.role, tokenVersion := u.tokenVersion
          fingerprint := some fp, ip := some ip } jti now))
    (hnow : nowMs2 / 1000 < now + accessTokenExpirySec)
    (hfindR : st.users.find? (fun v => v.passwordResetToken == some resetTok &&
      match v.passwordResetExpiry with
      | some e => decide (nowMs < e)
      | none => false) = some u)
    (hfindC : st.users.find? (fun v => v.id = u.id) = some u)
    (hnoreuse : u.passwordHistory.any (fun old => comparePassword newPassword old) = false)
    (hpw : comparePassword currentPassword u.passwordHash = true) :
    (exceptOk (resetPassword resetTok newPassword nowMs st).1 = true ∧
      AuthMw.authenticate req nowMs2 env (resetPassword resetTok newPassword nowMs st).2 =
        .respond 401 "Token has been revoked") ∧
    (exceptOk (changePassword u.id currentPassword newPassword nowMs st).1 = true ∧
      AuthMw.authenticate req nowMs2 env
        (changePassword u.id currentPassword newPassword nowMs st).2 =
        .respond 401 "Token has been revoked") := by
  have hmem : u ∈ st.users := List.mem_of_find?_eq_some hfindR
  have hres : resetPassword resetTok newPassword nowMs st =
      (.ok "Password reset successfully. Please log in with your new password.",
       { st with
           users := updateUser st.users
             { u with
               passwordHash := bcryptHash newPassword
               passwordResetToken := none
               passwordResetExpiry := none
               lastPasswordChange := some nowMs
               passwordHistory := (bcryptHash newPassword :: u.passwordHistory).take 5
               tokenVersion := u.tokenVersion + 1 }
           sessions := revokeAllUserTokens u.id "Password reset" st.sessions
           sentEmails := st.sentEmails ++ [(u.email, "password-changed")] }) := by
    simp only [resetPassword, hfindR]
    rw [if_neg (by simp [hnoreuse])]
  have hchg : changePassword u.id currentPassword newPassword nowMs st =
      (.ok "Password changed successfully. Please log in again.",
       { st with
           users := updateUser st.users
             { u with
               passwordHash := bcryptHash newPassword
               lastPasswordChange := some nowMs
               passwordHistory := (bcryptHash newPassword :: u.passwordHistory).take 5
               tokenVersion := u.tokenVersion + 1 }
           sessions := revokeAllUserTokens u.id "Password changed" st.sessions
           sentEmails := st.sentEmails ++ [(u.email, "password-changed")] }) := by
    simp only [changePassword, hfindC]
    rw [if_neg (by simp [hpw]), if_neg (by simp [hnoreuse])]
  refine ⟨⟨?_, ?_⟩, ⟨?_, ?_⟩⟩
  · rw [hres]; rfl
  · rw [hres]
    have hfind1 := find?_updateUser st.users
      { u with
        passwordHash := bcryptHash newPassword
        passwordResetToken := none
        passwordResetExpiry := none
        lastPasswordChange := some nowMs
        passwordHistory := (bcryptHash newPassword :: u.passwordHistory).take 5
        tokenVersion := u.tokenVersion + 1 }
      ⟨u, hmem, rfl⟩
    exact authenticate_revoked req u _ fp ip jti now nowMs2 env _ hflat hid hemail hrole
      hreq hnow hfind1 rfl
  · rw [hchg]; rfl
  · rw [hchg]
    have hfind2 := find?_updateUser st.users
      { u with
        passwordHash := bcryptHash newPassword
        lastPasswordChange := some nowMs
        passwordHistory := (bcryptHash newPassword :: u.passwordHistory).take 5
        tokenVersion := u.tokenVersion + 1 }
      ⟨u, hmem, rfl⟩
    exact authenticate_revoked req u _ fp ip jti now nowMs2 env _ hflat hid hemail hrole
      hreq hnow hfind2 rfl

/-- C3 witness: a concrete user resets (and separately changes) the
password; the pre-change access token is then rejected as revoked. -/
theorem c3_password_change_invalidates_tokens_witness :
    (exceptOk (resetPassword "rtok1" "NewPassw0rd!" 1500 c3State).1 = true ∧
      AuthMw.authenticate Fp.c3Req 1000000 "production"
        (resetPassword "rtok1" "NewPassw0rd!" 1500 c3State).2 =
        .respond 401 "Token has been revoked") ∧
    (exceptOk (changePassword "u1" "OldPassw0rd!" "NewPassw0rd!" 1500 c3State).1 = true ∧
      AuthMw.authenticate Fp.c3Req 1000000 "production"
        (changePassword "u1" "OldPassw0rd!" "NewPassw0rd!" 1500 c3State).2 =
        .respond 401 "Token has been revoked") :=
  c3_password_change_invalidates_tokens c3State c3User "rtok1" "NewPassw0rd!"
    "OldPassw0rd!" 1500 Fp.c3Req "fp1" "1.2.3.4" "jti1" 1000 1000000 "production"
    (by decide) (by decide) (by decide) (by decide) (by decide) (by decide) (by decide)
    (by decide) (by decide) (by decide)

end ClaimC3

section ClaimC2

open Js JwtTs AuthSvc

/-- Helper: after a family revocation, every session of that family is
revoked. -/
theorem revokeFamily_revokes (fam reason : String) (sessions : List RefreshSession) :
    ∀ x ∈ revokeFamily fam reason sessions, x.family = fam → x.revoked = true := by
  intro x hx hxf
  simp only [revokeFamily, List.mem_map] at hx
  rcases hx with ⟨y, _, rfl⟩
  by_cases hyf : y.family = fam
  · rw [if_pos hyf]
  · rw [if_neg hyf] at hxf ⊢
    exact absurd hxf hyf

/-- C2: refresh rotation — a valid stored refresh token rotates
successfully once, leaving the presented session revoked next to the newly
inserted one; presenting the same token again within its TTL fails with
the reuse error and revokes the whole family; and when the insert of the
new session collides with a stored hash, the flow surfaces the
refresh-in-progress error with the presented session already revoked
(revocation precedes insertion). -/
theorem c2_refresh_rotation (st : AuthState) (u : User) (s : RefreshSession)
    (fam newFamily : String) (nowSec nowMs : Nat) (d : DeviceInfo)
    (newSessionId jti : String) (r : List Char)
    (hr : r = signRefreshToken { sub := u.id, family := fam, tokenVersion := u.tokenVersion }
      nowSec)
    (hflat : (refreshClaims u.id fam u.tokenVersion).all flatField = true)
    (hid : u.id ≠ "") (hfam : fam ≠ "")
    (hufind : st.users.find? (fun v => some v.id = some u.id) = some u)
    (hsess : st.sessions = [s])
    (hs : s.hashedToken = JwtTs.hashToken r)
    (hrev : s.revoked = false)
    (hexp1 : nowMs < s.expiresAt)
    (hnow1 : nowMs / 1000 < nowSec + refreshTokenExpirySec)
    (hneq : JwtTs.hashToken (signRefreshToken
      { sub := u.id, family := newFamily, tokenVersion := u.tokenVersion } (nowMs / 1000)) ≠
      JwtTs.hashToken r) :
    (exceptOk (refreshAccessToken r d nowMs newFamily newSessionId jti st).1 = true) ∧
    (∀ x ∈ (refreshAccessToken r d nowMs newFamily newSessionId jti st).2.sessions,
      x.hashedToken = JwtTs.hashToken r → x.revoked = true) ∧
    (∀ d2 nowMs2 nf2 nsid2 jti2, nowMs2 < s.expiresAt →
      (refreshAccessToken r d2 nowMs2 nf2 nsid2 jti2
          (refreshAccessToken r d nowMs newFamily newSessionId jti st).2).1 =
        .error "Refresh token reuse detected" ∧
      ∀ x ∈ (refreshAccessToken r d2 nowMs2 nf2 nsid2 jti2
          (refreshAccessToken r d nowMs newFamily newSessionId jti st).2).2.sessions,
        x.family = s.family → x.revoked = true) ∧
    (∀ d3 nowMs3 nsid3 jti3, nowMs3 / 1000 = nowSec → nowMs3 < s.expiresAt →
      (refreshAccessToken r d3 nowMs3 fam nsid3 jti3 st).1 =
        .error "Token refresh in progress, please retry" ∧
      ∀ x ∈ (refreshAccessToken r d3 nowMs3 fam nsid3 jti3 st).2.sessions,
        x.hashedToken = JwtTs.hashToken r → x.revoked = true) := by
  have hver1 : verifyRefreshToken r (nowMs / 1000) =
      .ok (Jwt.jwtPayloadJson (refreshClaims u.id fam u.tokenVersion)
        refreshTokenExpirySec nowSec) := by
    rw [hr]
    exact verifyRefreshToken_signRefreshToken u.id fam u.tokenVersion nowSec (nowMs / 1000)
      hflat hid hfam hnow1
  have hsubget : jgetStr (Jwt.jwtPayloadJson (refreshClaims u.id fam u.tokenVersion)
      refreshTokenExpirySec nowSec) "sub" = some u.id := by
    simp only [jgetStr]
    rw [jget_payload_skip _ _ _ _ (by decide) (by decide)]
    rfl
  have htvget : jgetNum (Jwt.jwtPayloadJson (refreshClaims u.id fam u.tokenVersion)
      refreshTokenExpirySec nowSec) "tokenVersion" = some u.tokenVersion := by
    simp only [jgetNum]
    rw [jget_payload_skip _ _ _ _ (by decide) (by decide)]
    rfl
  have hval1 : validateRefreshToken r nowMs st.sessions = (.ok s, st.sessions) := by
    rw [hsess]
    have hf : List.find? (fun x => x.hashedToken = JwtTs.hashToken r) [s] = some s :=
      List.find?_cons_of_pos _ (by simp [hs])
    simp only [validateRefreshToken, hf]
    rw [if_neg (by simp [hrev]), if_neg (by omega)]
  have hrevoke : revokeRefreshToken r "Token rotated" st.sessions =
      [{ s with revoked := true, revokedReason := some "Token rotated" }] := by
    rw [hsess]
    simp only [revokeRefreshToken, List.map_cons, List.map_nil]
    rw [if_pos hs]
  have hcreate1 : ∀ expAt,
      createRefreshToken
        (signRefreshToken { sub := u.id, family := newFamily, tokenVersion := u.tokenVersion }
          (nowMs / 1000)) u.id d newFamily expAt newSessionId
        [{ s with revoked := true, revokedReason := some "Token rotated" }] =
      (.ok (),
       [{ s with revoked := true, revokedReason := some "Token rotated" },
        { id := newSessionId, userId := u.id
          hashedToken := JwtTs.hashToken (signRefreshToken
            { sub := u.id, family := newFamily, tokenVersion := u.tokenVersion }
            (nowMs / 1000))
          family := newFamily, deviceId := d.deviceId, deviceName := d.deviceName
          userAgent := d.userAgent, ipAddress := d.ipAddress
          revoked := false, revokedReason := none, expiresAt := expAt }]) := by
    intro expAt
    simp only [createRefreshToken]
    rw [if_neg ?hno]
    case hno =>
      intro hco
      simp only [List.any_cons, List.any_nil, Bool.or_false, decide_eq_true_eq] at hco
      rw [show ({ s with revoked := true, revokedReason := some "Token rotated" } :
        RefreshSession).hashedToken = s.hashedToken from rfl, hs] at hco
      exact hneq hco.symm
    rfl
  have hrun1full : refreshAccessToken r d nowMs newFamily newSessionId jti st =
      (Except.ok
        { accessToken :=
            signAccessToken
              { sub := u.id, email := u.email, role := u.role, tokenVersion := u.tokenVersion
                fingerprint :=
                  some (Fp.generateFingerprintFromComponents d.userAgent d.ipAddress)
                ip := none } jti (nowMs / 1000)
          refreshToken :=
            signRefreshToken
              { sub := u.id, family := newFamily, tokenVersion := u.tokenVersion }
              (nowMs / 1000) },
       { st with sessions :=
          [{ s with revoked := true, revokedReason := some "Token rotated" },
           { id := newSessionId, userId := u.id
             hashedToken := JwtTs.hashToken (signRefreshToken
               { sub := u.id, family := newFamily, tokenVersion := u.tokenVersion }
               (nowMs / 1000))
             family := newFamily, deviceId := d.deviceId, deviceName := d.deviceName
             userAgent := d.userAgent, ipAddress := d.ipAddress
             revoked := false, revokedReason := none,
             expiresAt := nowMs + 604800000 }] }) := by
    simp only [refreshAccessToken, hval1, hver1, hsubget, hufind, htvget]
    rw [if_neg (fun hco => hco rfl)]
    simp only [hrevoke, hcreate1]
  refine ⟨?_, ?_, ?_, ?_⟩
  · rw [hrun1full]
    rfl
  · simp only [hrun1full]
    intro x hx hxh
    rcases List.mem_cons.mp hx with rfl | hx2
    · rfl
    · rcases List.mem_cons.mp hx2 with rfl | hx3
      · exact absurd hxh hneq
      · exact absurd hx3 (List.not_mem_nil x)
  · intro d2 nowMs2 nf2 nsid2 jti2 hexp2
    have hf2 : List.find? (fun x => x.hashedToken = JwtTs.hashToken r)
        [{ s with revoked := true, revokedReason := some "Token rotated" },
         { id := newSessionId, userId := u.id
           hashedToken := JwtTs.hashToken (signRefreshToken
             { sub := u.id, family := newFamily, tokenVersion := u.tokenVersion }
             (nowMs / 1000))
           family := newFamily, deviceId := d.deviceId, deviceName := d.deviceName
           userAgent := d.userAgent, ipAddress := d.ipAddress
           revoked := false, revokedReason := none,
           expiresAt := nowMs + 604800000 }] =
        some { s with revoked := true, revokedReason := some "Token rotated" } :=
      List.find?_cons_of_pos _ (by simp [hs])
    have hval2 : validateRefreshToken r nowMs2
        [{ s with revoked := true, revokedReason := some "Token rotated" },
         { id := newSessionId, userId := u.id
           hashedToken := JwtTs.hashToken (signRefreshToken
             { sub := u.id, family := newFamily, tokenVersion := u.tokenVersion }
             (nowMs / 1000))
           family := newFamily, deviceId := d.deviceId, deviceName := d.deviceName
           userAgent := d.userAgent, ipAddress := d.ipAddress
           revoked := false, revokedReason := none,
           expiresAt := nowMs + 604800000 }] =
        (.error "Refresh token reuse detected",
         revokeFamily s.family "Token reuse detected"
           [{ s with revoked := true, revokedReason := some "Token rotated" },
            { id := newSessionId, userId := u.id
              hashedToken := JwtTs.hashToken (signRefreshToken
                { sub := u.id, family := newFamily, tokenVersion := u.tokenVersion }
                (nowMs / 1000))
              family := newFamily, deviceId := d.deviceId, deviceName := d.deviceName
              userAgent := d.userAgent, ipAddress := d.ipAddress
              revoked := false, revokedReason := none,
              expiresAt := nowMs + 604800000 }]) := by
      simp only [validateRefreshToken, hf2]
      rw [if_pos trivial, if_pos hexp2]
    constructor
    · rw [hrun1full]
      simp only [refreshAccessToken, hval2]
    · intro x hx hxf
      rw [hrun1full] at hx
      simp only [refreshAccessToken, hval2] at hx
      exact revokeFamily_revokes s.family "Token reuse detected" _ x hx hxf
  · intro d3 nowMs3 nsid3 jti3 hms3 hexp3
    have hver3 : verifyRefreshToken r (nowMs3 / 1000) =
        .ok (Jwt.jwtPayloadJson (refreshClaims u.id fam u.tokenVersion)
          refreshTokenExpirySec nowSec) := by
      rw [hr, hms3]
      exact verifyRefreshToken_signRefreshToken u.id fam u.tokenVersion nowSec nowSec
        hflat hid hfam (Nat.lt_add_of_pos_right (by decide))
    have hval3 : validateRefreshToken r nowMs3 st.sessions = (.ok s, st.sessions) := by
      rw [hsess]
      have hf : List.find? (fun x => x.hashedToken = JwtTs.hashToken r) [s] = some s :=
        List.find?_cons_of_pos _ (by simp [hs])
      simp only [validateRefreshToken, hf]
      rw [if_neg (by simp [hrev]), if_neg (by omega)]
    have hcreate4 : ∀ expAt,
        createRefreshToken
          (signRefreshToken { sub := u.id, family := fam, tokenVersion := u.tokenVersion }
            (nowMs3 / 1000)) u.id d3 fam expAt nsid3
          [{ s with revoked := true, revokedReason := some "Token rotated" }] =
        (.error "E11000 duplicate key",
         [{ s with revoked := true, revokedReason := some "Token rotated" }]) := by
      intro expAt
      simp only [createRefreshToken]
      rw [if_pos ?hyes]
      case hyes =>
        simp only [List.any_cons, List.any_nil, Bool.or_false, decide_eq_true_eq]
        rw [show ({ s with revoked := true, revokedReason := some "Token rotated" } :
          RefreshSession).hashedToken = s.hashedToken from rfl, hs, hr, hms3]
    have hrevoke3 : revokeRefreshToken r "Token rotated" st.sessions =
        [{ s with revoked := true, revokedReason := some "Token rotated" }] := hrevoke
    simp only [refreshAccessToken, hval3, hver3, hsubget, hufind, htvget]
    rw [if_neg (fun hco => hco rfl)]
    simp only [hrevoke3, hcreate4]
    constructor
    · trivial
    · intro x hx hxh
      rcases List.mem_cons.mp hx with rfl | hx2
      · rfl
      · exact absurd hx2 (List.not_mem_nil x)

/-- C2 witness: a concrete stored session rotates once; replaying the same
refresh token afterwards is rejected and revokes the family; re-minting an
identical token collides on the hash index and surfaces the
refresh-in-progress error. -/
theorem c2_refresh_rotation_witness :
    (exceptOk (refreshAccessToken c2Token baseDevice 2000000 "f2" "sid2" "jti2"
      c2State).1 = true) ∧
    (∀ x ∈ (refreshAccessToken c2Token baseDevice 2000000 "f2" "sid2" "jti2"
        c2State).2.sessions,
      x.hashedToken = JwtTs.hashToken c2Token → x.revoked = true) ∧
    (∀ d2 nowMs2 nf2 nsid2 jti2, nowMs2 < c2Session.expiresAt →
      (refreshAccessToken c2Token d2 nowMs2 nf2 nsid2 jti2
          (refreshAccessToken c2Token baseDevice 2000000 "f2" "sid2" "jti2" c2State).2).1 =
        .error "Refresh token reuse detected" ∧
      ∀ x ∈ (refreshAccessToken c2Token d2 nowMs2 nf2 nsid2 jti2
          (refreshAccessToken c2Token baseDevice 2000000 "f2" "sid2" "jti2"
            c2State).2).2.sessions,
        x.family = c2Session.family → x.revoked = true) ∧
    (∀ d3 nowMs3 nsid3 jti3, nowMs3 / 1000 = 1000 → nowMs3 < c2Session.expiresAt →
      (refreshAccessToken c2Token d3 nowMs3 "f1" nsid3 jti3 c2State).1 =
        .error "Token refresh in progress, please retry" ∧
      ∀ x ∈ (refreshAccessToken c2Token d3 nowMs3 "f1" nsid3 jti3 c2State).2.sessions,
        x.hashedToken = JwtTs.hashToken c2Token → x.revoked = true) :=
  c2_refresh_rotation c2State baseUser c2Session "f1" "f2" 1000 2000000 baseDevice
    "sid2" "jti2" c2Token rfl (by decide) (by decide) (by decide) (by decide) rfl rfl rfl
    (by decide) (by decide) (by decide)

end ClaimC2
